import Mathlib

/-!
Verification development for the Wildberries statistics pipeline.

This file embeds the core transformation code of the repository in Lean:

* excel_actions/adv_params_ea/transform.py — the fullstats transformer,
  per-article aggregation over platforms, and the CPC/CTR/CPM calculators;
* excel_actions/cr_daily_stats_ea/transform.py — the conversion-rate
  snapshot builder (build_record, extract_cr_stats_for_supabase,
  calculate_order_price);
* excel_actions/adv_params_ea/data_validator.py — the record validator and
  the batch validator.

Modelling conventions:

* Python Decimal values (exact decimal arithmetic) are modelled as rationals.
  Decimal.quantize(Decimal(0.01)) with the default ROUND_HALF_EVEN context is
  modelled by quantize2 below.  Python float arithmetic in
  calculate_order_price (round(x, 2)) is likewise modelled as exact rational
  arithmetic with round-half-even, which matches it on the magnitudes the
  pipeline handles.
* Python dicts read through .get are modelled as structures whose fields hold
  the value after the .get default was applied; fields read with .get and no
  default become Option fields (None = none).  Python falsiness checks
  (if not x) on ints test x = 0, on strings test emptiness, on Options
  none-ness; each site spells the corresponding test out.
* The insertion-ordered Python dict used by the aggregator is modelled as an
  association list: an update of an existing key rewrites the entry in place,
  a new key is appended at the end — exactly the iteration order Python
  guarantees.
* A raised exception is modelled by Option/Except: transform returns none when
  _parse_date raises ValueError; the batch validator returns Except.error for
  a raised DataValidationError.
* The console warning print for a vendor-code lookup miss is a side effect
  with no data flow; the model just skips the article, as the source does.
-/

namespace Wildberries

/-! ### Decimal rounding

Models Decimal.quantize(Decimal(0.01)) under the default ROUND_HALF_EVEN
rounding of the Python decimal context.  roundHalfEven rounds a rational to
the nearest integer, ties to the even neighbour. -/

def roundHalfEven (x : ℚ) : ℤ :=
  if x - ⌊x⌋ < 1 / 2 then ⌊x⌋
  else if 1 / 2 < x - ⌊x⌋ then ⌊x⌋ + 1
  else if ⌊x⌋ % 2 = 0 then ⌊x⌋ else ⌊x⌋ + 1

def quantize2 (x : ℚ) : ℚ :=
  (roundHalfEven (x * 100) : ℚ) / 100

/-! ### adv_params_ea/transform.py — data model

The raw fullstats response: campaign → days → apps (platforms) → nms
(articles).  Numeric fields carry the value after the Python .get default. -/

structure NmEntry where
  /-- nm.get(nmId); both a missing key and an explicit 0 are falsy in the
  source, so 0 also stands for a missing identifier here. -/
  nmId : ℤ
  /-- nm.get(views, 0) -/
  views : ℤ
  /-- nm.get(clicks, 0) -/
  clicks : ℤ
  /-- Decimal(str(nm.get(sum, 0))) -/
  sum : ℚ
  /-- nm.get(cpc, 0) -/
  cpc : ℚ
deriving DecidableEq

structure App where
  /-- app.get(nms, []) -/
  nms : List NmEntry
deriving DecidableEq

structure Day where
  /-- day.get(date); none models a missing key, the empty string is the other
  falsy value the source skips on. -/
  date : Option String
  /-- day.get(orders, 0) -/
  orders : ℤ
  /-- Decimal(str(day.get(sum_price, 0))) -/
  sum_price : ℚ
  /-- day.get(apps, []) -/
  apps : List App
deriving DecidableEq

structure Campaign where
  /-- campaign.get(advertId); a missing key and 0 are both falsy, so 0 also
  stands for a missing identifier. -/
  advertId : ℤ
  /-- campaign.get(days, []) -/
  days : List Day
deriving DecidableEq

/-- The per-article running totals of the aggregation dict. -/
structure NmMetrics where
  views : ℤ
  clicks : ℤ
  sum : ℚ
  cpc_list : List ℚ
deriving DecidableEq

/-- The zero record the source installs on first sight of an article. -/
def zeroMetrics : NmMetrics := ⟨0, 0, 0, []⟩

/-- One accumulation step of the aggregation loop body: add the views, clicks
and sum of one nm entry, and append its cpc to cpc_list when positive
(the source tests cpc_value and cpc_value > 0, which for numbers is just
positivity). -/
def addNm (m : NmMetrics) (e : NmEntry) : NmMetrics :=
  { views := m.views + e.views
    clicks := m.clicks + e.clicks
    sum := m.sum + e.sum
    cpc_list := if 0 < e.cpc then m.cpc_list ++ [e.cpc] else m.cpc_list }

/-- One iteration of the inner aggregation loop: skip a falsy article id,
update the entry in place when the key exists, append a fresh entry
otherwise (Python dict insertion-order semantics). -/
def insertNm (acc : List (ℤ × NmMetrics)) (e : NmEntry) : List (ℤ × NmMetrics) :=
  if e.nmId = 0 then acc
  else if acc.any (fun p => p.1 = e.nmId) then
    acc.map (fun p => if p.1 = e.nmId then (p.1, addNm p.2 e) else p)
  else acc ++ [(e.nmId, addNm zeroMetrics e)]

/-- _aggregate_nm_metrics_by_platforms: fold the nested
for app in apps / for nm in nms loops over an initially empty dict. -/
def _aggregate_nm_metrics_by_platforms (apps : List App) : List (ℤ × NmMetrics) :=
  apps.foldl (fun acc app => app.nms.foldl insertNm acc) []

/-- Dict value lookup in the association-list model. -/
def lookupMetrics (acc : List (ℤ × NmMetrics)) (k : ℤ) : Option NmMetrics :=
  (acc.find? (fun p => p.1 = k)).map (fun p => p.2)

/-! ### Metric calculators -/

/-- _calculate_cpc: sum / clicks quantized to two decimals, None when
clicks = 0. -/
def _calculate_cpc (sum_value : ℚ) (clicks : ℤ) : Option ℚ :=
  if clicks = 0 then none
  else some (quantize2 (sum_value / (clicks : ℚ)))

/-- _calculate_ctr: (clicks / views) * 100 quantized to two decimals, None
when views = 0. -/
def _calculate_ctr (clicks views : ℤ) : Option ℚ :=
  if views = 0 then none
  else some (quantize2 ((clicks : ℚ) / (views : ℚ) * 100))

/-- _calculate_cpm: (sum / views) * 1000 quantized to two decimals, None when
views = 0. -/
def _calculate_cpm (sum_value : ℚ) (views : ℤ) : Option ℚ :=
  if views = 0 then none
  else some (quantize2 (sum_value / (views : ℚ) * 1000))

/-! ### Date parsing

_parse_date delegates to datetime.fromisoformat / strptime and keeps only the
date component.  The model parses the YYYY-MM-DD prefix, requires it to be
followed by nothing or by a time part introduced by T or a space, and checks
the month and day ranges.  (The Python stdlib additionally validates month
lengths and the time-of-day digits; no claim in this development exercises
those corners.) -/

structure Date where
  year : ℕ
  month : ℕ
  day : ℕ
deriving DecidableEq

def digitVal (c : Char) : ℕ := c.toNat - 48

/-- Assemble a date from the eight digit characters of a YYYY-MM-DD prefix,
validating digits and month/day ranges. -/
def mkParsedDate (y1 y2 y3 y4 m1 m2 d1 d2 : Char) : Option Date :=
  if ([y1, y2, y3, y4, m1, m2, d1, d2].all Char.isDigit) then
    let y := ((digitVal y1 * 10 + digitVal y2) * 10 + digitVal y3) * 10 + digitVal y4
    let m := digitVal m1 * 10 + digitVal m2
    let d := digitVal d1 * 10 + digitVal d2
    if 1 ≤ m ∧ m ≤ 12 ∧ 1 ≤ d ∧ d ≤ 31 then some ⟨y, m, d⟩ else none
  else none

/-- _parse_date: a date-only string or a date followed by a time part; a
string of any other shape raises ValueError in the source, modelled by
none. -/
def _parse_date (s : String) : Option Date :=
  match s.data with
  | [y1, y2, y3, y4, '-', m1, m2, '-', d1, d2] =>
      mkParsedDate y1 y2 y3 y4 m1 m2 d1 d2
  | y1 :: y2 :: y3 :: y4 :: '-' :: m1 :: m2 :: '-' :: d1 :: d2 :: sep :: _ =>
      if sep = 'T' ∨ sep = ' ' then mkParsedDate y1 y2 y3 y4 m1 m2 d1 d2 else none
  | _ => none

/-! ### The transformer -/

structure CampaignDailyStats where
  advert_id : ℤ
  nm_id : ℤ
  vendor_code : String
  date : Date
  views : ℤ
  clicks : ℤ
  sum : ℚ
  cpc : Option ℚ
  ctr : Option ℚ
  orders : ℤ
  orders_sum : ℚ
  cpm : Option ℚ
deriving DecidableEq

/-- vendor_code_map.get(nm_id) on the dict modelled as an association list. -/
def dictGet (m : List (ℤ × String)) (k : ℤ) : Option String :=
  (m.find? (fun p => p.1 = k)).map (fun p => p.2)

/-- Construction of one output record from the day context and one aggregated
article entry (the body of the innermost transformer loop). -/
def mkDayStats (advert_id nm_id : ℤ) (vendor_code : String) (day_date : Date)
    (day_orders : ℤ) (day_sum_price : ℚ) (metrics : NmMetrics) : CampaignDailyStats :=
  { advert_id := advert_id
    nm_id := nm_id
    vendor_code := vendor_code
    date := day_date
    views := metrics.views
    clicks := metrics.clicks
    sum := metrics.sum
    cpc := _calculate_cpc metrics.sum metrics.clicks
    ctr := _calculate_ctr metrics.clicks metrics.views
    orders := day_orders
    orders_sum := day_sum_price
    cpm := _calculate_cpm metrics.sum metrics.views }

/-- The per-article loop of the transformer over the aggregated dict of one
day: drop articles below the views threshold, drop articles whose vendor code
lookup is falsy (missing key or empty string; the source prints a warning and
continues), emit a record otherwise. -/
def dayRecords (advert_id : ℤ) (vendor_code_map : List (ℤ × String))
    (min_views_threshold : ℤ) (day : Day) (day_date : Date) : List CampaignDailyStats :=
  (_aggregate_nm_metrics_by_platforms day.apps).filterMap (fun p =>
    if p.2.views < min_views_threshold then none
    else
      match dictGet vendor_code_map p.1 with
      | none => none
      | some vc =>
          if vc = "" then none
          else some (mkDayStats advert_id p.1 vc day_date day.orders day.sum_price p.2))

/-- Processing of one day: skip a day with a falsy date field, abort (raise
ValueError) on an unparseable date, emit the day records otherwise. -/
def processDay (advert_id : ℤ) (vendor_code_map : List (ℤ × String))
    (min_views_threshold : ℤ) (day : Day) : Option (List CampaignDailyStats) :=
  match day.date with
  | none => some []
  | some s =>
      if s = "" then some []
      else
        match _parse_date s with
        | none => none
        | some d => some (dayRecords advert_id vendor_code_map min_views_threshold day d)

/-- Sequential accumulation of per-element record lists where any element may
abort the whole run (the Python for-loop building result, with exception
propagation). -/
def optFlatMap (f : α → Option (List β)) : List α → Option (List β)
  | [] => some []
  | a :: l =>
      match f a, optFlatMap f l with
      | some ys, some zs => some (ys ++ zs)
      | _, _ => none

/-- transform_fullstats_to_campaign_daily: campaigns with a falsy advertId are
skipped; each day of the remaining campaigns contributes its records in
order. -/
def transform_fullstats_to_campaign_daily (fullstats_response : List Campaign)
    (vendor_code_map : List (ℤ × String)) (min_views_threshold : ℤ) :
    Option (List CampaignDailyStats) :=
  optFlatMap (fun c =>
    if c.advertId = 0 then some []
    else optFlatMap (processDay c.advertId vendor_code_map min_views_threshold) c.days)
    fullstats_response

/-! ### cr_daily_stats_ea/transform.py — data model

Supabase records are built as Python dicts whose set of keys matters (the
stock keys are intentionally omitted, not null, for yesterday records), so a
record is modelled as a key/value association list in insertion order. -/

inductive JVal where
  | nullv : JVal
  | intv : ℤ → JVal
  | strv : String → JVal
  | ratv : ℚ → JVal
deriving DecidableEq

/-- An optional integer field as stored in a record: null when absent. -/
def jInt : Option ℤ → JVal
  | none => .nullv
  | some n => .intv n

/-- An optional numeric field as stored in a record: null when absent. -/
def jRat : Option ℚ → JVal
  | none => .nullv
  | some q => .ratv q

abbrev SupabaseRecord := List (String × JVal)

/-- Record key lookup (dict access on the built record). -/
def lookupKey (r : SupabaseRecord) (k : String) : Option JVal :=
  (r.find? (fun p => p.1 = k)).map (fun p => p.2)

structure Conversions where
  /-- conversions.get(addToCartPercent) -/
  addToCartPercent : Option ℚ
  /-- conversions.get(cartToOrderPercent) -/
  cartToOrderPercent : Option ℚ
deriving DecidableEq

structure PeriodData where
  /-- period_data.get(openCardCount) -/
  openCardCount : Option ℤ
  /-- period_data.get(addToCartCount) -/
  addToCartCount : Option ℤ
  /-- period_data.get(ordersCount) -/
  ordersCount : Option ℤ
  /-- period_data.get(cancelCount) -/
  cancelCount : Option ℤ
  /-- period_data.get(ordersSumRub) -/
  ordersSumRub : Option ℚ
  /-- period_data.get(conversions, empty dict); none models a missing key -/
  conversions : Option Conversions
deriving DecidableEq

structure Stocks where
  /-- stocks.get(stocksMp) -/
  stocksMp : Option ℤ
  /-- stocks.get(stocksWb) -/
  stocksWb : Option ℤ
deriving DecidableEq

/-- calculate_order_price: ordersSumRub / ordersCount rounded to two
decimals; None when ordersCount is falsy (missing or 0), not positive, or
ordersSumRub is missing.  Python round(x, 2) rounds half to even. -/
def calculate_order_price (period_data : PeriodData) : Option ℚ :=
  match period_data.ordersCount, period_data.ordersSumRub with
  | some c, some s => if 0 < c then some (quantize2 (s / (c : ℚ))) else none
  | _, _ => none

/-- build_record: the eleven always-present keys in source order, followed by
the two stock keys exactly when a stocks argument was supplied. -/
def build_record (nm_id : ℤ) (vendor_code : String) (date : String)
    (period_data : PeriodData) (stocks : Option Stocks) : SupabaseRecord :=
  let conversions := period_data.conversions.getD ⟨none, none⟩
  [("nm_id", .intv nm_id),
   ("vendor_code", .strv vendor_code),
   ("date_of_period", .strv date),
   ("open_card_count", jInt period_data.openCardCount),
   ("add_to_cart_count", jInt period_data.addToCartCount),
   ("orders_count", jInt period_data.ordersCount),
   ("cancel_count", jInt period_data.cancelCount),
   ("orders_sum_rub", jRat period_data.ordersSumRub),
   ("add_to_cart_percent", jRat conversions.addToCartPercent),
   ("cart_to_order_percent", jRat conversions.cartToOrderPercent),
   ("order_price", jRat (calculate_order_price period_data))]
  ++ (match stocks with
      | none => []
      | some st => [("stocks_mp", jInt st.stocksMp), ("stocks_wb", jInt st.stocksWb)])

structure Statistics where
  /-- statistics.get(selectedPeriod, empty dict); the source then tests
  truthiness, so none models a missing key or an empty dict alike. -/
  selectedPeriod : Option PeriodData
  /-- statistics.get(previousPeriod, empty dict), same convention. -/
  previousPeriod : Option PeriodData
deriving DecidableEq

structure Card where
  /-- card.get(nmID) -/
  nmID : Option ℤ
  /-- card.get(vendorCode) -/
  vendorCode : Option String
  /-- card.get(statistics, empty dict); a missing dict reads as both periods
  missing. -/
  statistics : Statistics
  /-- card.get(stocks, empty dict); never None, so the today record always
  receives a stocks argument. -/
  stocks : Stocks
deriving DecidableEq

structure ApiResponse where
  /-- api_response.get(data, empty dict).get(cards, []) -/
  cards : List Card
deriving DecidableEq

/-- The truthiness test the source applies to card.get(nmID). -/
def truthyInt : Option ℤ → Bool
  | none => false
  | some n => n != 0

/-- The truthiness test the source applies to card.get(vendorCode). -/
def truthyStr : Option String → Bool
  | none => false
  | some s => s != ""

/-- extract_cr_stats_for_supabase.  The source computes today from the
Europe/Moscow wall clock and yesterday as today minus one day; the two date
strings are wall-clock inputs of the embedding.  Cards with a falsy nmID or
vendorCode are skipped; a truthy selectedPeriod yields a today record with
the stock block, a truthy previousPeriod a yesterday record without it. -/
def extract_cr_stats_for_supabase (today_str yesterday_str : String)
    (api_response : ApiResponse) : List SupabaseRecord × List SupabaseRecord :=
  let records_today := api_response.cards.filterMap (fun card =>
    if truthyInt card.nmID && truthyStr card.vendorCode then
      match card.statistics.selectedPeriod with
      | some pd =>
          some (build_record (card.nmID.getD 0) (card.vendorCode.getD "") today_str pd
            (some card.stocks))
      | none => none
    else none)
  let records_yesterday := api_response.cards.filterMap (fun card =>
    if truthyInt card.nmID && truthyStr card.vendorCode then
      match card.statistics.previousPeriod with
      | some pd =>
          some (build_record (card.nmID.getD 0) (card.vendorCode.getD "") yesterday_str pd
            none)
      | none => none
    else none)
  (records_today, records_yesterday)

/-! ### adv_params_ea/data_validator.py

validate_campaign_daily_stats collects violation messages and raises iff the
list is non-empty; the model returns the collected list.  Interpolated
Decimal and date payloads are rendered by the helpers below; Python formats
the same data slightly differently (exact text is not load-bearing for any
claim). -/

def pad2 (n : ℕ) : String := if n < 10 then "0" ++ toString n else toString n

def dateToString (d : Date) : String :=
  toString d.year ++ "-" ++ pad2 d.month ++ "-" ++ pad2 d.day

def ratToString (q : ℚ) : String :=
  toString q.num ++ (if q.den = 1 then "" else "/" ++ toString q.den)

/-- vendor_code.strip() is empty iff every character is whitespace. -/
def isAllWhitespace (s : String) : Bool := s.data.all (fun c => c.isWhitespace)

/-- The repr of a CampaignDailyStats object used in the exception message. -/
def statsRepr (s : CampaignDailyStats) : String :=
  "CampaignDailyStats(advert_id=" ++ toString s.advert_id ++
  ", nm_id=" ++ toString s.nm_id ++
  ", date=" ++ dateToString s.date ++
  ", views=" ++ toString s.views ++
  ", orders=" ++ toString s.orders ++ ")"

/-- validate_campaign_daily_stats: every check of the source in order.  The
isinstance check on the date field always passes in this typed model.  The
source condition (not advert_id or advert_id <= 0) collapses to
advert_id <= 0, and likewise for nm_id. -/
def validate_campaign_daily_stats (stats : CampaignDailyStats) : List String :=
  (if stats.advert_id ≤ 0 then ["Invalid advert_id: " ++ toString stats.advert_id] else []) ++
  (if stats.nm_id ≤ 0 then ["Invalid nm_id: " ++ toString stats.nm_id] else []) ++
  (if stats.vendor_code = "" ∨ isAllWhitespace stats.vendor_code then
    ["Empty vendor_code for nm_id " ++ toString stats.nm_id] else []) ++
  (if stats.views < 0 then ["Negative views: " ++ toString stats.views] else []) ++
  (if stats.clicks < 0 then ["Negative clicks: " ++ toString stats.clicks] else []) ++
  (if stats.sum < 0 then ["Negative sum: " ++ ratToString stats.sum] else []) ++
  (if stats.orders < 0 then ["Negative orders: " ++ toString stats.orders] else []) ++
  (if stats.orders_sum < 0 then ["Negative orders_sum: " ++ ratToString stats.orders_sum] else []) ++
  (match stats.cpc with
   | some c => if c < 0 then ["Negative cpc: " ++ ratToString c] else []
   | none => []) ++
  (match stats.ctr with
   | some c => if c < 0 ∨ 100 < c then ["Invalid ctr (must be 0-100%): " ++ ratToString c] else []
   | none => []) ++
  (match stats.cpm with
   | some c => if c < 0 then ["Negative cpm: " ++ ratToString c] else []
   | none => []) ++
  (if stats.views < stats.clicks then
    ["Clicks (" ++ toString stats.clicks ++ ") > views (" ++ toString stats.views ++ ")"] else []) ++
  (if stats.cpc.isSome ∧ stats.clicks = 0 then ["CPC is set but clicks = 0"] else [])

/-- The message of the DataValidationError raised for one invalid record. -/
def validationErrorMessage (stats : CampaignDailyStats) (errs : List String) : String :=
  "Validation failed for " ++ statsRepr stats ++ ": " ++ String.intercalate "; " errs

structure ValidationReport where
  valid : Bool
  total : ℕ
  valid_count : ℕ
  invalid_count : ℕ
  errors : List String
deriving DecidableEq

/-- The per-record message the batch validator records and re-raises (the
source formats Record i+1/len followed by the inner exception message). -/
def recordErrorMessage (i total : ℕ) (stats : CampaignDailyStats) : String :=
  "Record " ++ toString (i + 1) ++ "/" ++ toString total ++ ": " ++
    validationErrorMessage stats (validate_campaign_daily_stats stats)

/-- The enumerated loop of validate_campaign_daily_stats_batch carrying the
running index and counters; Except.error models the re-raised
DataValidationError of fail-fast mode. -/
def batchGo (total : ℕ) (raise_on_error : Bool) :
    List CampaignDailyStats → ℕ → ℕ → ℕ → List String → Except String ValidationReport
  | [], _, valid_count, invalid_count, errs =>
      .ok ⟨invalid_count == 0, total, valid_count, invalid_count, errs⟩
  | stats :: rest, i, valid_count, invalid_count, errs =>
      if (validate_campaign_daily_stats stats).isEmpty then
        batchGo total raise_on_error rest (i + 1) (valid_count + 1) invalid_count errs
      else
        let msg := recordErrorMessage i total stats
        if raise_on_error then .error msg
        else batchGo total raise_on_error rest (i + 1) valid_count (invalid_count + 1)
          (errs ++ [msg])

/-- validate_campaign_daily_stats_batch. -/
def validate_campaign_daily_stats_batch (stats_list : List CampaignDailyStats)
    (raise_on_error : Bool) : Except String ValidationReport :=
  batchGo stats_list.length raise_on_error stats_list 0 0 0 []

/-! ## Properties of the rounding model -/

theorem roundHalfEven_close (x : ℚ) : |(roundHalfEven x : ℚ) - x| ≤ 1 / 2 := by
  have h1 : (⌊x⌋ : ℚ) ≤ x := Int.floor_le x
  have h2 : x < ⌊x⌋ + 1 := Int.lt_floor_add_one x
  unfold roundHalfEven
  split_ifs with hlt hgt heven <;>
    (rw [abs_le]; push_cast; constructor <;> linarith)

theorem quantize2_close (x : ℚ) : |quantize2 x - x| ≤ 1 / 200 := by
  have h := roundHalfEven_close (x * 100)
  unfold quantize2
  rw [abs_le] at h ⊢
  obtain ⟨hl, hr⟩ := h
  constructor <;> linarith

theorem quantize2_den (x : ℚ) : (quantize2 x * 100).den = 1 := by
  unfold quantize2
  rw [div_mul_cancel₀ _ (by norm_num : (100 : ℚ) ≠ 0)]
  exact Rat.den_intCast _

/-- Claim C1: for every Decimal spend and integer clicks/views,
_calculate_cpc is None iff clicks = 0, and otherwise spend/clicks rounded to
two decimal places (a value with at most two decimals within half a unit of
the last place of the exact quotient); _calculate_ctr is None iff views = 0
and otherwise (clicks/views)*100 rounded to two decimals; _calculate_cpm is
None iff views = 0 and otherwise (spend/views)*1000 rounded to two
decimals. -/
theorem calculators_round_and_zero_denominators (spend : ℚ) (clicks views : ℤ) :
    (_calculate_cpc spend clicks = none ↔ clicks = 0) ∧
    (clicks ≠ 0 → ∃ q, _calculate_cpc spend clicks = some q ∧
      q = quantize2 (spend / (clicks : ℚ)) ∧ (q * 100).den = 1 ∧
      |q - spend / (clicks : ℚ)| ≤ 1 / 200) ∧
    (_calculate_ctr clicks views = none ↔ views = 0) ∧
    (views ≠ 0 → ∃ q, _calculate_ctr clicks views = some q ∧
      q = quantize2 ((clicks : ℚ) / (views : ℚ) * 100) ∧ (q * 100).den = 1 ∧
      |q - (clicks : ℚ) / (views : ℚ) * 100| ≤ 1 / 200) ∧
    (_calculate_cpm spend views = none ↔ views = 0) ∧
    (views ≠ 0 → ∃ q, _calculate_cpm spend views = some q ∧
      q = quantize2 (spend / (views : ℚ) * 1000) ∧ (q * 100).den = 1 ∧
      |q - spend / (views : ℚ) * 1000| ≤ 1 / 200) := by
  refine ⟨?_, ?_, ?_, ?_, ?_, ?_⟩
  · unfold _calculate_cpc; split_ifs with h <;> simp [h]
  · intro h
    refine ⟨quantize2 (spend / (clicks : ℚ)), ?_, rfl, quantize2_den _, quantize2_close _⟩
    unfold _calculate_cpc; simp [h]
  · unfold _calculate_ctr; split_ifs with h <;> simp [h]
  · intro h
    refine ⟨quantize2 ((clicks : ℚ) / (views : ℚ) * 100), ?_, rfl, quantize2_den _,
      quantize2_close _⟩
    unfold _calculate_ctr; simp [h]
  · unfold _calculate_cpm; split_ifs with h <;> simp [h]
  · intro h
    refine ⟨quantize2 (spend / (views : ℚ) * 1000), ?_, rfl, quantize2_den _,
      quantize2_close _⟩
    unfold _calculate_cpm; simp [h]

/-- Claim C1 witness: the nonzero-denominator branches at spend = 5,
clicks = 2, views = 4. -/
theorem calculators_round_and_zero_denominators_witness :
    (∃ q, _calculate_cpc 5 2 = some q ∧
      q = quantize2 (5 / ((2 : ℤ) : ℚ)) ∧ (q * 100).den = 1 ∧
      |q - 5 / ((2 : ℤ) : ℚ)| ≤ 1 / 200) ∧
    (∃ q, _calculate_ctr 2 4 = some q ∧
      q = quantize2 (((2 : ℤ) : ℚ) / ((4 : ℤ) : ℚ) * 100) ∧ (q * 100).den = 1 ∧
      |q - ((2 : ℤ) : ℚ) / ((4 : ℤ) : ℚ) * 100| ≤ 1 / 200) ∧
    (∃ q, _calculate_cpm 5 4 = some q ∧
      q = quantize2 (5 / ((4 : ℤ) : ℚ) * 1000) ∧ (q * 100).den = 1 ∧
      |q - 5 / ((4 : ℤ) : ℚ) * 1000| ≤ 1 / 200) :=
  ⟨(calculators_round_and_zero_denominators 5 2 4).2.1 (by decide),
   (calculators_round_and_zero_denominators 5 2 4).2.2.2.1 (by decide),
   (calculators_round_and_zero_denominators 5 2 4).2.2.2.2.2 (by decide)⟩

/-! ## The aggregation dict as a function of the entry multiset -/

/-- All nm entries of a platform list, in iteration order of the nested
loops. -/
def allNms (apps : List App) : List NmEntry := (apps.map App.nms).flatten

theorem foldl_nested_eq_foldl_allNms (apps : List App) (acc : List (ℤ × NmMetrics)) :
    apps.foldl (fun acc app => app.nms.foldl insertNm acc) acc =
      (allNms apps).foldl insertNm acc := by
  induction apps generalizing acc with
  | nil => rfl
  | cons a t ih =>
      rw [List.foldl_cons, ih]
      unfold allNms
      rw [List.map_cons, List.flatten_cons, List.foldl_append]

theorem agg_eq_foldl_allNms (apps : List App) :
    _aggregate_nm_metrics_by_platforms apps = (allNms apps).foldl insertNm [] :=
  foldl_nested_eq_foldl_allNms apps []

theorem find?_replace_eq (acc : List (ℤ × NmMetrics)) (e : NmEntry) :
    (acc.map (fun p => if p.1 = e.nmId then (p.1, addNm p.2 e) else p)).find?
        (fun p => p.1 = e.nmId) =
      (acc.find? (fun p => p.1 = e.nmId)).map (fun p => (p.1, addNm p.2 e)) := by
  induction acc with
  | nil => simp
  | cons p t ih =>
      by_cases hp : p.1 = e.nmId
      · simp [List.find?, hp]
      · simp only [List.map_cons, if_neg hp]
        rw [List.find?_cons_of_neg _ (by simp [hp]), List.find?_cons_of_neg _ (by simp [hp]), ih]

theorem find?_replace_ne (acc : List (ℤ × NmMetrics)) (e : NmEntry) (k' : ℤ)
    (hkk : k' ≠ e.nmId) :
    (acc.map (fun p => if p.1 = e.nmId then (p.1, addNm p.2 e) else p)).find?
        (fun p => p.1 = k') = acc.find? (fun p => p.1 = k') := by
  induction acc with
  | nil => simp
  | cons p t ih =>
      by_cases hp : p.1 = e.nmId
      · have h1 : ¬ p.1 = k' := by rw [hp]; exact fun h => hkk h.symm
        simp only [List.map_cons, if_pos hp]
        rw [List.find?_cons_of_neg _ (by simp [h1]), List.find?_cons_of_neg _ (by simp [h1]), ih]
      · simp only [List.map_cons, if_neg hp]
        by_cases hp' : p.1 = k'
        · rw [List.find?_cons_of_pos _ (by simp [hp']), List.find?_cons_of_pos _ (by simp [hp'])]
        · rw [List.find?_cons_of_neg _ (by simp [hp']), List.find?_cons_of_neg _ (by simp [hp']),
            ih]

theorem lookupMetrics_insertNm_self (acc : List (ℤ × NmMetrics)) (e : NmEntry)
    (he : e.nmId ≠ 0) :
    lookupMetrics (insertNm acc e) e.nmId =
      some (addNm ((lookupMetrics acc e.nmId).getD zeroMetrics) e) := by
  unfold insertNm lookupMetrics
  rw [if_neg he]
  by_cases hany : acc.any (fun p => p.1 = e.nmId) = true
  · rw [if_pos hany, find?_replace_eq]
    have hs : (acc.find? (fun p => p.1 = e.nmId)).isSome = true := by
      rw [List.find?_isSome]
      simpa using List.any_eq_true.mp hany
    obtain ⟨p0, hp0⟩ := Option.isSome_iff_exists.mp hs
    rw [hp0]
    simp
  · rw [if_neg hany, List.find?_append]
    have hnone : acc.find? (fun p => p.1 = e.nmId) = none := by
      rw [List.find?_eq_none]
      intro x hx
      by_contra hpx
      exact hany (List.any_eq_true.mpr ⟨x, hx, by simpa using hpx⟩)
    rw [hnone]
    simp [List.find?]

theorem lookupMetrics_insertNm_ne (acc : List (ℤ × NmMetrics)) (e : NmEntry) (k : ℤ)
    (hk : k ≠ e.nmId) :
    lookupMetrics (insertNm acc e) k = lookupMetrics acc k := by
  unfold insertNm lookupMetrics
  by_cases h0 : e.nmId = 0
  · rw [if_pos h0]
  · rw [if_neg h0]
    by_cases hany : acc.any (fun p => p.1 = e.nmId) = true
    · rw [if_pos hany, find?_replace_ne _ _ _ hk]
    · rw [if_neg hany, List.find?_append]
      have hsing : List.find? (fun p => p.1 = k) [(e.nmId, addNm zeroMetrics e)] = none := by
        have hne : ¬ e.nmId = k := fun h => hk h.symm
        simp [List.find?, hne]
      rw [hsing]
      cases acc.find? (fun p => p.1 = k) <;> simp

theorem lookupMetrics_foldl_zero (l : List NmEntry) (acc : List (ℤ × NmMetrics)) :
    lookupMetrics (l.foldl insertNm acc) 0 = lookupMetrics acc 0 := by
  induction l generalizing acc with
  | nil => rfl
  | cons e t ih =>
      rw [List.foldl_cons, ih]
      by_cases h0 : e.nmId = 0
      · unfold insertNm; rw [if_pos h0]
      · exact lookupMetrics_insertNm_ne _ _ _ (Ne.symm h0)

/-- The views/clicks/sum triple of one raw entry. -/
def entryTriple (e : NmEntry) : ℤ × ℤ × ℚ := (e.views, e.clicks, e.sum)

/-- The views/clicks/sum triple of an aggregated value. -/
def statsTriple (m : NmMetrics) : ℤ × ℤ × ℚ := (m.views, m.clicks, m.sum)

/-- The triple of an optional aggregated value, zero when absent. -/
def optTriple (o : Option NmMetrics) : ℤ × ℤ × ℚ := (o.map statsTriple).getD 0

theorem statsTriple_addNm (m : NmMetrics) (e : NmEntry) :
    statsTriple (addNm m e) = statsTriple m + entryTriple e := by
  simp [statsTriple, addNm, entryTriple, Prod.ext_iff]

theorem optTriple_addNm_getD (o : Option NmMetrics) (e : NmEntry) :
    optTriple (some (addNm (o.getD zeroMetrics) e)) = optTriple o + entryTriple e := by
  cases o <;>
    simp [optTriple, statsTriple_addNm, statsTriple, addNm, zeroMetrics, entryTriple,
      Prod.ext_iff]

theorem foldl_insertNm_triple (l : List NmEntry) (acc : List (ℤ × NmMetrics)) (k : ℤ)
    (hk : k ≠ 0) :
    optTriple (lookupMetrics (l.foldl insertNm acc) k) =
      optTriple (lookupMetrics acc k) +
        ((l.filter (fun e => e.nmId = k)).map entryTriple).sum := by
  induction l generalizing acc with
  | nil => simp
  | cons e t ih =>
      rw [List.foldl_cons, ih]
      by_cases hek : e.nmId = k
      · have he0 : e.nmId ≠ 0 := by rw [hek]; exact hk
        have hself := lookupMetrics_insertNm_self acc e he0
        rw [hek] at hself
        rw [hself, optTriple_addNm_getD, List.filter_cons_of_pos (by simp [hek]),
          List.map_cons, List.sum_cons, add_assoc]
      · rw [lookupMetrics_insertNm_ne _ _ _ (fun h => hek h.symm),
          List.filter_cons_of_neg (by simp [hek])]

theorem foldl_insertNm_isSome (l : List NmEntry) (acc : List (ℤ × NmMetrics)) (k : ℤ)
    (hk : k ≠ 0) :
    (lookupMetrics (l.foldl insertNm acc) k).isSome =
      ((lookupMetrics acc k).isSome || l.any (fun e => e.nmId = k)) := by
  induction l generalizing acc with
  | nil => simp
  | cons e t ih =>
      rw [List.foldl_cons, ih]
      by_cases hek : e.nmId = k
      · have he0 : e.nmId ≠ 0 := by rw [hek]; exact hk
        have hself := lookupMetrics_insertNm_self acc e he0
        rw [hek] at hself
        rw [hself]
        simp [hek]
      · rw [lookupMetrics_insertNm_ne _ _ _ (fun h => hek h.symm)]
        simp [hek]

theorem agg_lookup_zero (apps : List App) :
    lookupMetrics (_aggregate_nm_metrics_by_platforms apps) 0 = none := by
  rw [agg_eq_foldl_allNms, lookupMetrics_foldl_zero]
  rfl

theorem agg_lookup_triple (apps : List App) (k : ℤ) (hk : k ≠ 0) :
    optTriple (lookupMetrics (_aggregate_nm_metrics_by_platforms apps) k) =
      (((allNms apps).filter (fun e => e.nmId = k)).map entryTriple).sum := by
  rw [agg_eq_foldl_allNms, foldl_insertNm_triple _ _ _ hk]
  have h0 : optTriple (lookupMetrics [] k) = 0 := rfl
  rw [h0, zero_add]

theorem agg_lookup_isSome (apps : List App) (k : ℤ) (hk : k ≠ 0) :
    (lookupMetrics (_aggregate_nm_metrics_by_platforms apps) k).isSome =
      (allNms apps).any (fun e => e.nmId = k) := by
  rw [agg_eq_foldl_allNms, foldl_insertNm_isSome _ _ _ hk]
  rfl

theorem perm_any_eq {α : Type _} {l₁ l₂ : List α} (h : l₁.Perm l₂) (p : α → Bool) :
    l₁.any p = l₂.any p := by
  cases hb' : l₁.any p with
  | true =>
      obtain ⟨x, hx, hpx⟩ := List.any_eq_true.mp hb'
      exact (List.any_eq_true.mpr ⟨x, h.mem_iff.mp hx, hpx⟩).symm
  | false =>
      cases hb : l₂.any p with
      | true =>
          obtain ⟨x, hx, hpx⟩ := List.any_eq_true.mp hb
          have hcontra := List.any_eq_true.mpr ⟨x, h.mem_iff.mpr hx, hpx⟩
          rw [hb'] at hcontra
          exact absurd hcontra (by simp)
      | false => rfl

/-- Claim C4: aggregating any permutation of the platform list, the
article list inside each platform itself arbitrarily permuted, gives every article id
the same summed views, clicks and sum (and the same presence in the
aggregation dict) as aggregating the original list. -/
theorem aggregate_perm_invariant (apps mid apps2 : List App) (k : ℤ)
    (h1 : apps.Perm mid)
    (h2 : List.Forall₂ (fun a b => a.nms.Perm b.nms) mid apps2) :
    (lookupMetrics (_aggregate_nm_metrics_by_platforms apps2) k).map statsTriple =
      (lookupMetrics (_aggregate_nm_metrics_by_platforms apps) k).map statsTriple := by
  have hperm : (allNms apps).Perm (allNms apps2) := by
    have ha : (apps.map App.nms).Perm (mid.map App.nms) := h1.map _
    have hb : List.Forall₂ List.Perm (mid.map App.nms) (apps2.map App.nms) := by
      rw [List.forall₂_map_right_iff, List.forall₂_map_left_iff]
      exact h2
    exact (ha.flatten).trans (List.Perm.flatten_congr hb)
  by_cases hk : k = 0
  · subst hk
    rw [agg_lookup_zero, agg_lookup_zero]
  · have hs : (lookupMetrics (_aggregate_nm_metrics_by_platforms apps2) k).isSome =
        (lookupMetrics (_aggregate_nm_metrics_by_platforms apps) k).isSome := by
      rw [agg_lookup_isSome _ _ hk, agg_lookup_isSome _ _ hk]
      exact (perm_any_eq hperm _).symm
    have ht : optTriple (lookupMetrics (_aggregate_nm_metrics_by_platforms apps2) k) =
        optTriple (lookupMetrics (_aggregate_nm_metrics_by_platforms apps) k) := by
      rw [agg_lookup_triple _ _ hk, agg_lookup_triple _ _ hk]
      exact (((hperm.filter _).map entryTriple).sum_eq).symm
    cases ha2 : lookupMetrics (_aggregate_nm_metrics_by_platforms apps2) k with
    | none =>
        cases ha : lookupMetrics (_aggregate_nm_metrics_by_platforms apps) k with
        | none => rfl
        | some m => rw [ha2, ha] at hs; simp at hs
    | some m2 =>
        cases ha : lookupMetrics (_aggregate_nm_metrics_by_platforms apps) k with
        | none => rw [ha2, ha] at hs; simp at hs
        | some m => rw [ha2, ha] at ht; simpa [optTriple] using ht

/-- Claim C4 witness: swapping the two platforms and permuting the
article list of the second platform leaves the aggregate of article 1 unchanged. -/
theorem aggregate_perm_invariant_witness :
    (lookupMetrics (_aggregate_nm_metrics_by_platforms
        [⟨[⟨2, 5, 1, 8, 0⟩, ⟨1, 0, 0, 0, 0⟩]⟩, ⟨[⟨1, 10, 2, 20, 0⟩]⟩]) 1).map statsTriple =
      (lookupMetrics (_aggregate_nm_metrics_by_platforms
        [⟨[⟨1, 10, 2, 20, 0⟩]⟩, ⟨[⟨1, 0, 0, 0, 0⟩, ⟨2, 5, 1, 8, 0⟩]⟩]) 1).map statsTriple :=
  aggregate_perm_invariant
    [⟨[⟨1, 10, 2, 20, 0⟩]⟩, ⟨[⟨1, 0, 0, 0, 0⟩, ⟨2, 5, 1, 8, 0⟩]⟩]
    [⟨[⟨1, 0, 0, 0, 0⟩, ⟨2, 5, 1, 8, 0⟩]⟩, ⟨[⟨1, 10, 2, 20, 0⟩]⟩]
    [⟨[⟨2, 5, 1, 8, 0⟩, ⟨1, 0, 0, 0, 0⟩]⟩, ⟨[⟨1, 10, 2, 20, 0⟩]⟩] 1
    (List.Perm.swap _ _ _)
    (List.Forall₂.cons (List.Perm.swap _ _ _)
      (List.Forall₂.cons (List.Perm.refl _) List.Forall₂.nil))

/-! ## Structural lemmas about the transformer loops -/

theorem mem_optFlatMap {α β : Type _} (f : α → Option (List β)) (l : List α) (ys : List β)
    (h : optFlatMap f l = some ys) (b : β) (hb : b ∈ ys) :
    ∃ a ∈ l, ∃ zs, f a = some zs ∧ b ∈ zs := by
  induction l generalizing ys with
  | nil =>
      unfold optFlatMap at h
      cases h
      cases hb
  | cons a t ih =>
      unfold optFlatMap at h
      cases hfa : f a with
      | none => rw [hfa] at h; cases h
      | some zs =>
          rw [hfa] at h
          cases hft : optFlatMap f t with
          | none => rw [hft] at h; cases h
          | some ws =>
              rw [hft] at h
              cases h
              rcases List.mem_append.mp hb with hz | hw
              · exact ⟨a, List.mem_cons_self a t, zs, hfa, hz⟩
              · obtain ⟨a', ha', zs', hfa', hb'⟩ := ih ws hft hw
                exact ⟨a', List.mem_cons_of_mem _ ha', zs', hfa', hb'⟩

theorem isSome_optFlatMap {α β : Type _} (f : α → Option (List β)) (l : List α) :
    (optFlatMap f l).isSome = true ↔ ∀ a ∈ l, (f a).isSome = true := by
  induction l with
  | nil => simp [optFlatMap]
  | cons a t ih =>
      unfold optFlatMap
      cases hfa : f a with
      | none =>
          simp only [Option.isSome_none, Bool.false_eq_true, false_iff]
          intro hall
          have := hall a (List.mem_cons_self a t)
          rw [hfa] at this
          simp at this
      | some zs =>
          cases hft : optFlatMap f t with
          | none =>
              simp only [Option.isSome_none, Bool.false_eq_true, false_iff]
              intro hall
              have hts : (optFlatMap f t).isSome = true :=
                ih.mpr (fun x hx => hall x (List.mem_cons_of_mem _ hx))
              rw [hft] at hts
              simp at hts
          | some ws =>
              simp only [Option.isSome_some, true_iff]
              intro x hx
              rcases List.mem_cons.mp hx with rfl | hxt
              · rw [hfa]; rfl
              · exact ih.mp (by rw [hft]; rfl) x hxt

theorem pairwise_optFlatMap {α β : Type _} {R : β → β → Prop} (f : α → Option (List β))
    (l : List α) (ys : List β) (h : optFlatMap f l = some ys)
    (hin : ∀ a ∈ l, ∀ zs, f a = some zs → zs.Pairwise R)
    (hacross : l.Pairwise (fun a b => ∀ za zb, f a = some za → f b = some zb →
      ∀ x ∈ za, ∀ y ∈ zb, R x y)) :
    ys.Pairwise R := by
  induction l generalizing ys with
  | nil =>
      unfold optFlatMap at h
      cases h
      exact List.Pairwise.nil
  | cons a t ih =>
      unfold optFlatMap at h
      cases hfa : f a with
      | none => rw [hfa] at h; cases h
      | some zs =>
          rw [hfa] at h
          cases hft : optFlatMap f t with
          | none => rw [hft] at h; cases h
          | some ws =>
              rw [hft] at h
              cases h
              rw [List.pairwise_append]
              refine ⟨hin a (List.mem_cons_self a t) zs hfa,
                ih ws hft (fun a' ha' => hin a' (List.mem_cons_of_mem _ ha'))
                  (List.Pairwise.sublist (List.sublist_cons_self a t) hacross), ?_⟩
              intro x hx y hy
              obtain ⟨b, hbt, zb, hfb, hyz⟩ := mem_optFlatMap f t ws hft y hy
              exact (List.pairwise_cons.mp hacross).1 b hbt zs zb hfa hfb x hx y hyz

theorem mem_dayRecords (advert_id : ℤ) (vmap : List (ℤ × String)) (mv : ℤ) (day : Day)
    (d : Date) (r : CampaignDailyStats) (hr : r ∈ dayRecords advert_id vmap mv day d) :
    ∃ p ∈ _aggregate_nm_metrics_by_platforms day.apps,
      ¬ p.2.views < mv ∧ ∃ vc, dictGet vmap p.1 = some vc ∧ vc ≠ "" ∧
        r = mkDayStats advert_id p.1 vc d day.orders day.sum_price p.2 := by
  unfold dayRecords at hr
  obtain ⟨p, hp, hfp⟩ := List.mem_filterMap.mp hr
  by_cases hv : p.2.views < mv
  · rw [if_pos hv] at hfp; cases hfp
  · rw [if_neg hv] at hfp
    cases hvc : dictGet vmap p.1 with
    | none => rw [hvc] at hfp; cases hfp
    | some vc =>
        rw [hvc] at hfp
        dsimp only at hfp
        by_cases hemp : vc = ""
        · rw [if_pos hemp] at hfp; cases hfp
        · rw [if_neg hemp] at hfp
          cases hfp
          exact ⟨p, hp, hv, vc, hvc, hemp, rfl⟩

theorem mem_transform (resp : List Campaign) (vmap : List (ℤ × String)) (mv : ℤ)
    (l : List CampaignDailyStats)
    (h : transform_fullstats_to_campaign_daily resp vmap mv = some l)
    (r : CampaignDailyStats) (hr : r ∈ l) :
    ∃ c ∈ resp, c.advertId ≠ 0 ∧ ∃ day ∈ c.days, ∃ s, day.date = some s ∧ s ≠ "" ∧
      ∃ d, _parse_date s = some d ∧ r ∈ dayRecords c.advertId vmap mv day d := by
  unfold transform_fullstats_to_campaign_daily at h
  obtain ⟨c, hc, zs, hzs, hrz⟩ := mem_optFlatMap _ _ _ h r hr
  by_cases hca : c.advertId = 0
  · rw [if_pos hca] at hzs
    cases hzs
    cases hrz
  · rw [if_neg hca] at hzs
    obtain ⟨day, hday, ws, hws, hrw⟩ := mem_optFlatMap _ _ _ hzs r hrz
    refine ⟨c, hc, hca, day, hday, ?_⟩
    unfold processDay at hws
    cases hdd : day.date with
    | none => rw [hdd] at hws; cases hws; cases hrw
    | some s =>
        rw [hdd] at hws
        dsimp only at hws
        by_cases hse : s = ""
        · rw [if_pos hse] at hws; cases hws; cases hrw
        · rw [if_neg hse] at hws
          cases hpd : _parse_date s with
          | none => rw [hpd] at hws; cases hws
          | some d =>
              rw [hpd] at hws
              cases hws
              exact ⟨s, rfl, hse, d, hpd, hrw⟩

/-- Well-formedness of one raw nm entry: counters consistent and spend
non-negative. -/
def entryWF (e : NmEntry) : Prop := 0 ≤ e.clicks ∧ e.clicks ≤ e.views ∧ 0 ≤ e.sum

/-- The same property for an aggregated value. -/
def metricsWF (m : NmMetrics) : Prop := 0 ≤ m.clicks ∧ m.clicks ≤ m.views ∧ 0 ≤ m.sum

theorem metricsWF_addNm (m : NmMetrics) (e : NmEntry) (hm : metricsWF m) (he : entryWF e) :
    metricsWF (addNm m e) := by
  obtain ⟨h1, h2, h3⟩ := hm
  obtain ⟨h4, h5, h6⟩ := he
  exact ⟨by simp [addNm]; linarith, by simp [addNm]; linarith, by simp [addNm]; linarith⟩

theorem insertNm_WF (acc : List (ℤ × NmMetrics)) (e : NmEntry)
    (hacc : ∀ p ∈ acc, metricsWF p.2) (he : entryWF e) :
    ∀ p ∈ insertNm acc e, metricsWF p.2 := by
  unfold insertNm
  split_ifs with h0 hany
  · exact hacc
  · intro p hp
    obtain ⟨q, hq, hqe⟩ := List.mem_map.mp hp
    by_cases hqk : q.1 = e.nmId
    · rw [if_pos hqk] at hqe
      rw [← hqe]
      exact metricsWF_addNm _ _ (hacc q hq) he
    · rw [if_neg hqk] at hqe
      rw [← hqe]
      exact hacc q hq
  · intro p hp
    rcases List.mem_append.mp hp with hold | hnew
    · exact hacc p hold
    · have hp' : p = (e.nmId, addNm zeroMetrics e) := by simpa using hnew
      rw [hp']
      exact metricsWF_addNm _ _ ⟨le_refl 0, le_refl 0, le_refl 0⟩ he

theorem foldl_insertNm_WF (l : List NmEntry) (acc : List (ℤ × NmMetrics))
    (hacc : ∀ p ∈ acc, metricsWF p.2) (hl : ∀ e ∈ l, entryWF e) :
    ∀ p ∈ l.foldl insertNm acc, metricsWF p.2 := by
  induction l generalizing acc with
  | nil => exact hacc
  | cons e t ih =>
      rw [List.foldl_cons]
      exact ih (insertNm acc e)
        (insertNm_WF acc e hacc (hl e (List.mem_cons_self e t)))
        (fun x hx => hl x (List.mem_cons_of_mem _ hx))

theorem agg_WF (apps : List App) (h : ∀ app ∈ apps, ∀ e ∈ app.nms, entryWF e) :
    ∀ p ∈ _aggregate_nm_metrics_by_platforms apps, metricsWF p.2 := by
  rw [agg_eq_foldl_allNms]
  refine foldl_insertNm_WF _ _ (by simp) ?_
  intro e he
  unfold allNms at he
  obtain ⟨nmsl, hmem, he'⟩ := List.mem_flatten.mp he
  obtain ⟨app, happ, rfl⟩ := List.mem_map.mp hmem
  exact h app happ e he'

/-- Claim C2 (amended): for a raw fullstats response whose nm entries all
satisfy 0 ≤ clicks ≤ views and 0 ≤ sum and whose day-level orders and
sum_price are non-negative, every record of the transformed list satisfies
clicks ≤ views, views ≥ 0, clicks ≥ 0, sum ≥ 0, orders ≥ 0 and
orders_sum ≥ 0.  (The transformer itself enforces none of these bounds, so
the hypotheses on the raw input are necessary; the unconditional claim is
refuted separately.) -/
theorem transform_records_wellformed (resp : List Campaign) (vmap : List (ℤ × String))
    (mv : ℤ) (l : List CampaignDailyStats)
    (hwf : ∀ c ∈ resp, ∀ day ∈ c.days, 0 ≤ day.orders ∧ 0 ≤ day.sum_price ∧
      ∀ app ∈ day.apps, ∀ e ∈ app.nms, 0 ≤ e.clicks ∧ e.clicks ≤ e.views ∧ 0 ≤ e.sum)
    (h : transform_fullstats_to_campaign_daily resp vmap mv = some l) :
    ∀ r ∈ l, 0 ≤ r.views ∧ 0 ≤ r.clicks ∧ r.clicks ≤ r.views ∧ 0 ≤ r.sum ∧
      0 ≤ r.orders ∧ 0 ≤ r.orders_sum := by
  intro r hr
  obtain ⟨c, hc, hca, day, hday, s, hs, hse, d, hd, hrd⟩ := mem_transform resp vmap mv l h r hr
  obtain ⟨p, hp, hv, vc, hvc, hvce, hre⟩ := mem_dayRecords _ _ _ _ _ _ hrd
  obtain ⟨ho, hsp, hnm⟩ := hwf c hc day hday
  have hm : metricsWF p.2 := agg_WF day.apps (fun app ha e heq => hnm app ha e heq) p hp
  obtain ⟨h1, h2, h3⟩ := hm
  rw [hre]
  simp only [mkDayStats]
  exact ⟨by linarith, h1, h2, h3, ho, hsp⟩

/-- Claim C2 counterexample: the transformer copies raw metrics without
bound checks, so a response carrying clicks = 2 against views = 1 and a
negative day-level order count is passed through verbatim, violating the
claimed invariants of the returned list. -/
theorem transform_records_wellformed_counterexample :
    ¬ (∀ (resp : List Campaign) (vmap : List (ℤ × String)) (l : List CampaignDailyStats),
        transform_fullstats_to_campaign_daily resp vmap 1 = some l →
        ∀ r ∈ l, 0 ≤ r.views ∧ 0 ≤ r.clicks ∧ r.clicks ≤ r.views ∧ 0 ≤ r.sum ∧
          0 ≤ r.orders ∧ 0 ≤ r.orders_sum) := by
  intro hclaim
  have hpd : _parse_date "2025-09-28" = some ⟨2025, 9, 28⟩ := by decide
  have heval : transform_fullstats_to_campaign_daily
      [⟨1, [⟨some "2025-09-28", -1, 0, [⟨[⟨1, 1, 2, 0, 0⟩]⟩]⟩]⟩] [(1, "A")] 1 =
      some [⟨1, 1, "A", ⟨2025, 9, 28⟩, 1, 2, 0, some 0, some 200, -1, 0, some 0⟩] := by
    have hs1 : ("2025-09-28" : String) ≠ "" := by decide
    have hs2 : ("A" : String) ≠ "" := by decide
    unfold transform_fullstats_to_campaign_daily
    norm_num [hpd, hs1, hs2, optFlatMap, processDay, dayRecords,
      _aggregate_nm_metrics_by_platforms, insertNm, addNm, zeroMetrics, dictGet, mkDayStats,
      _calculate_cpc, _calculate_ctr, _calculate_cpm, quantize2, roundHalfEven, List.find?,
      List.filterMap]
  have hbad := hclaim _ _ _ heval
    ⟨1, 1, "A", ⟨2025, 9, 28⟩, 1, 2, 0, some 0, some 200, -1, 0, some 0⟩ (by simp)
  obtain ⟨-, -, h3, -, -, -⟩ := hbad
  norm_num at h3

/-- Claim C2 witness: the amended invariant theorem applied to a well-formed
concrete response (the worked scenario of the specification: views 10,
clicks 2, spend 20, day orders 5, day sum 250). -/
theorem transform_records_wellformed_witness :
    0 ≤ (⟨1, 1, "A", ⟨2025, 9, 27⟩, 10, 2, 20, some 10, some 20, 5, 250, some 2000⟩ :
        CampaignDailyStats).views ∧
    0 ≤ (⟨1, 1, "A", ⟨2025, 9, 27⟩, 10, 2, 20, some 10, some 20, 5, 250, some 2000⟩ :
        CampaignDailyStats).clicks ∧
    (⟨1, 1, "A", ⟨2025, 9, 27⟩, 10, 2, 20, some 10, some 20, 5, 250, some 2000⟩ :
        CampaignDailyStats).clicks ≤
      (⟨1, 1, "A", ⟨2025, 9, 27⟩, 10, 2, 20, some 10, some 20, 5, 250, some 2000⟩ :
        CampaignDailyStats).views ∧
    0 ≤ (⟨1, 1, "A", ⟨2025, 9, 27⟩, 10, 2, 20, some 10, some 20, 5, 250, some 2000⟩ :
        CampaignDailyStats).sum ∧
    0 ≤ (⟨1, 1, "A", ⟨2025, 9, 27⟩, 10, 2, 20, some 10, some 20, 5, 250, some 2000⟩ :
        CampaignDailyStats).orders ∧
    0 ≤ (⟨1, 1, "A", ⟨2025, 9, 27⟩, 10, 2, 20, some 10, some 20, 5, 250, some 2000⟩ :
        CampaignDailyStats).orders_sum :=
  transform_records_wellformed
    [⟨1, [⟨some "2025-09-27", 5, 250, [⟨[⟨1, 10, 2, 20, 0⟩]⟩]⟩]⟩] [(1, "A")] 1 _
    (by
      intro c hc day hday
      simp only [List.mem_singleton] at hc
      subst hc
      simp only [List.mem_singleton] at hday
      subst hday
      refine ⟨by norm_num, by norm_num, ?_⟩
      intro app happ e he
      simp only [List.mem_singleton] at happ
      subst happ
      simp only [List.mem_singleton] at he
      subst he
      norm_num)
    (by
      have hpd : _parse_date "2025-09-27" = some ⟨2025, 9, 27⟩ := by decide
      have hs1 : ("2025-09-27" : String) ≠ "" := by decide
      have hs2 : ("A" : String) ≠ "" := by decide
      unfold transform_fullstats_to_campaign_daily
      norm_num [hpd, hs1, hs2, optFlatMap, processDay, dayRecords,
        _aggregate_nm_metrics_by_platforms, insertNm, addNm, zeroMetrics, dictGet, mkDayStats,
        _calculate_cpc, _calculate_ctr, _calculate_cpm, quantize2, roundHalfEven, List.find?,
        List.filterMap])
    ⟨1, 1, "A", ⟨2025, 9, 27⟩, 10, 2, 20, some 10, some 20, 5, 250, some 2000⟩
    (List.mem_singleton.mpr rfl)

/-! ## Key distinctness of the transformer output -/

theorem insertNm_keys_pairwise (acc : List (ℤ × NmMetrics)) (e : NmEntry)
    (h : acc.Pairwise (fun p q => p.1 ≠ q.1)) :
    (insertNm acc e).Pairwise (fun p q => p.1 ≠ q.1) := by
  unfold insertNm
  split_ifs with h0 hany
  · exact h
  · refine List.Pairwise.map _ ?_ h
    intro a b hab
    have hka : (if a.1 = e.nmId then (a.1, addNm a.2 e) else a).1 = a.1 := by
      by_cases hx : a.1 = e.nmId <;> simp [hx]
    have hkb : (if b.1 = e.nmId then (b.1, addNm b.2 e) else b).1 = b.1 := by
      by_cases hx : b.1 = e.nmId <;> simp [hx]
    simp only [hka, hkb]
    exact hab
  · rw [List.pairwise_append]
    refine ⟨h, List.pairwise_singleton _ _, ?_⟩
    intro a ha b hb
    have hb' : b = (e.nmId, addNm zeroMetrics e) := by simpa using hb
    rw [hb']
    intro hcontra
    exact hany (List.any_eq_true.mpr ⟨a, ha, by simp [hcontra]⟩)

theorem foldl_insertNm_keys_pairwise (l : List NmEntry) (acc : List (ℤ × NmMetrics))
    (h : acc.Pairwise (fun p q => p.1 ≠ q.1)) :
    (l.foldl insertNm acc).Pairwise (fun p q => p.1 ≠ q.1) := by
  induction l generalizing acc with
  | nil => exact h
  | cons e t ih => exact ih _ (insertNm_keys_pairwise acc e h)

theorem agg_keys_pairwise (apps : List App) :
    (_aggregate_nm_metrics_by_platforms apps).Pairwise (fun p q => p.1 ≠ q.1) := by
  rw [agg_eq_foldl_allNms]
  exact foldl_insertNm_keys_pairwise _ _ List.Pairwise.nil

theorem dayRecords_emit_nm (aid : ℤ) (vmap : List (ℤ × String)) (mv : ℤ) (day : Day)
    (d : Date) (p : ℤ × NmMetrics) (r : CampaignDailyStats)
    (h : (if p.2.views < mv then none
          else match dictGet vmap p.1 with
            | none => none
            | some vc => if vc = "" then none
                else some (mkDayStats aid p.1 vc d day.orders day.sum_price p.2)) = some r) :
    r.nm_id = p.1 := by
  by_cases hv : p.2.views < mv
  · rw [if_pos hv] at h; cases h
  · rw [if_neg hv] at h
    cases hvc : dictGet vmap p.1 with
    | none => rw [hvc] at h; cases h
    | some vc =>
        rw [hvc] at h
        dsimp only at h
        by_cases hemp : vc = ""
        · rw [if_pos hemp] at h; cases h
        · rw [if_neg hemp] at h
          cases h
          rfl

theorem dayRecords_pairwise_nm (aid : ℤ) (vmap : List (ℤ × String)) (mv : ℤ) (day : Day)
    (d : Date) :
    (dayRecords aid vmap mv day d).Pairwise (fun r1 r2 => r1.nm_id ≠ r2.nm_id) := by
  unfold dayRecords
  rw [List.pairwise_filterMap]
  refine (agg_keys_pairwise day.apps).imp ?_
  intro p q hpq b hb b' hb'
  have hbp : b.nm_id = p.1 := dayRecords_emit_nm aid vmap mv day d p b (Option.mem_def.mp hb)
  have hbq : b'.nm_id = q.1 := dayRecords_emit_nm aid vmap mv day d q b' (Option.mem_def.mp hb')
  rw [hbp, hbq]
  exact hpq

theorem dayRecords_fields (aid : ℤ) (vmap : List (ℤ × String)) (mv : ℤ) (day : Day)
    (d : Date) :
    ∀ r ∈ dayRecords aid vmap mv day d, r.advert_id = aid ∧ r.date = d := by
  intro r hr
  obtain ⟨p, hp, hv, vc, hvc, hvce, hre⟩ := mem_dayRecords _ _ _ _ _ _ hr
  rw [hre]
  exact ⟨rfl, rfl⟩

/-- The value a processed day is keyed by: its parsed date, absent when the
day is skipped for a falsy date field (an unparseable date aborts the run
instead). -/
def dayKey (day : Day) : Option Date :=
  match day.date with
  | none => none
  | some s => if s = "" then none else _parse_date s

theorem processDay_inv (aid : ℤ) (vmap : List (ℤ × String)) (mv : ℤ) (day : Day)
    (ws : List CampaignDailyStats) (h : processDay aid vmap mv day = some ws) :
    ws = [] ∨ ∃ d, dayKey day = some d ∧ ws = dayRecords aid vmap mv day d := by
  unfold processDay at h
  cases hdd : day.date with
  | none => rw [hdd] at h; cases h; exact Or.inl rfl
  | some s =>
      rw [hdd] at h
      dsimp only at h
      by_cases hse : s = ""
      · rw [if_pos hse] at h; cases h; exact Or.inl rfl
      · rw [if_neg hse] at h
        cases hpd : _parse_date s with
        | none => rw [hpd] at h; cases h
        | some d =>
            rw [hpd] at h
            cases h
            exact Or.inr ⟨d, by simp [dayKey, hdd, hse, hpd], rfl⟩

/-- Claim C5 (amended): when the campaigns of the response carry pairwise
distinct non-falsy advertIds and, within each campaign, no two days share the
same parsed date, no two records of the transformed list share the
(advert_id, nm_id, date) triple.  (The transformer deduplicates nothing, so
a response repeating a campaign or a date produces duplicate triples; the
unconditional claim is refuted separately.) -/
theorem transform_unique_keys (resp : List Campaign) (vmap : List (ℤ × String)) (mv : ℤ)
    (l : List CampaignDailyStats)
    (hA : resp.Pairwise (fun c1 c2 =>
      c1.advertId = 0 ∨ c2.advertId = 0 ∨ c1.advertId ≠ c2.advertId))
    (hD : ∀ c ∈ resp, c.days.Pairwise (fun d1 d2 =>
      ∀ x, dayKey d1 = some x → dayKey d2 ≠ some x))
    (h : transform_fullstats_to_campaign_daily resp vmap mv = some l) :
    l.Pairwise (fun r1 r2 =>
      ¬ (r1.advert_id = r2.advert_id ∧ r1.nm_id = r2.nm_id ∧ r1.date = r2.date)) := by
  unfold transform_fullstats_to_campaign_daily at h
  refine pairwise_optFlatMap _ _ _ h ?_ ?_
  · intro c hc zs hzs
    by_cases hca : c.advertId = 0
    · rw [if_pos hca] at hzs; cases hzs; exact List.Pairwise.nil
    · rw [if_neg hca] at hzs
      refine pairwise_optFlatMap _ _ _ hzs ?_ ?_
      · intro day hday ws hws
        rcases processDay_inv _ _ _ _ _ hws with rfl | ⟨d, hdk, rfl⟩
        · exact List.Pairwise.nil
        · exact (dayRecords_pairwise_nm _ _ _ _ _).imp (fun hne hconj => hne hconj.2.1)
      · refine (hD c hc).imp ?_
        intro d1 d2 h12 za zb hza hzb x hx y hy hconj
        rcases processDay_inv _ _ _ _ _ hza with rfl | ⟨dx, hdx, rfl⟩
        · cases hx
        rcases processDay_inv _ _ _ _ _ hzb with rfl | ⟨dy, hdy, rfl⟩
        · cases hy
        have hxd : x.date = dx := (dayRecords_fields _ _ _ _ _ x hx).2
        have hyd : y.date = dy := (dayRecords_fields _ _ _ _ _ y hy).2
        have : dx = dy := by rw [← hxd, ← hyd]; exact hconj.2.2
        exact h12 dx hdx (this ▸ hdy)
  · refine hA.imp ?_
    intro c1 c2 h12 za zb hza hzb x hx y hy hconj
    by_cases hc1 : c1.advertId = 0
    · rw [if_pos hc1] at hza; cases hza; cases hx
    by_cases hc2 : c2.advertId = 0
    · rw [if_pos hc2] at hzb; cases hzb; cases hy
    rw [if_neg hc1] at hza
    rw [if_neg hc2] at hzb
    have hxa : x.advert_id = c1.advertId := by
      obtain ⟨day, hday, ws, hws, hrw⟩ := mem_optFlatMap _ _ _ hza x hx
      rcases processDay_inv _ _ _ _ _ hws with rfl | ⟨d, hdk, rfl⟩
      · cases hrw
      · exact (dayRecords_fields _ _ _ _ _ x hrw).1
    have hya : y.advert_id = c2.advertId := by
      obtain ⟨day, hday, ws, hws, hrw⟩ := mem_optFlatMap _ _ _ hzb y hy
      rcases processDay_inv _ _ _ _ _ hws with rfl | ⟨d, hdk, rfl⟩
      · cases hrw
      · exact (dayRecords_fields _ _ _ _ _ y hrw).1
    rcases h12 with h12 | h12 | h12
    · exact hc1 h12
    · exact hc2 h12
    · exact h12 (by rw [← hxa, ← hya]; exact hconj.1)

/-- Claim C5 counterexample: the transformer performs no deduplication, so a
response listing the same campaign twice yields two records with the
identical (advert_id, nm_id, date) triple. -/
theorem transform_unique_keys_counterexample :
    ¬ (∀ (resp : List Campaign) (vmap : List (ℤ × String)) (l : List CampaignDailyStats),
        transform_fullstats_to_campaign_daily resp vmap 1 = some l →
        l.Pairwise (fun r1 r2 =>
          ¬ (r1.advert_id = r2.advert_id ∧ r1.nm_id = r2.nm_id ∧ r1.date = r2.date))) := by
  intro hclaim
  have hpd : _parse_date "2025-09-28" = some ⟨2025, 9, 28⟩ := by decide
  have hs1 : ("2025-09-28" : String) ≠ "" := by decide
  have hs2 : ("A" : String) ≠ "" := by decide
  have heval : transform_fullstats_to_campaign_daily
      [⟨1, [⟨some "2025-09-28", 0, 0, [⟨[⟨1, 1, 0, 0, 0⟩]⟩]⟩]⟩,
       ⟨1, [⟨some "2025-09-28", 0, 0, [⟨[⟨1, 1, 0, 0, 0⟩]⟩]⟩]⟩] [(1, "A")] 1 =
      some [⟨1, 1, "A", ⟨2025, 9, 28⟩, 1, 0, 0, none, some 0, 0, 0, some 0⟩,
            ⟨1, 1, "A", ⟨2025, 9, 28⟩, 1, 0, 0, none, some 0, 0, 0, some 0⟩] := by
    unfold transform_fullstats_to_campaign_daily
    norm_num [hpd, hs1, hs2, optFlatMap, processDay, dayRecords,
      _aggregate_nm_metrics_by_platforms, insertNm, addNm, zeroMetrics, dictGet, mkDayStats,
      _calculate_cpc, _calculate_ctr, _calculate_cpm, quantize2, roundHalfEven, List.find?,
      List.filterMap]
  have hpw := hclaim _ _ _ heval
  exact (List.pairwise_cons.mp hpw).1 _ (List.mem_cons_self _ _) ⟨rfl, rfl, rfl⟩

/-- Claim C5 witness: the amended uniqueness theorem applied to a concrete
response with two distinct campaigns reporting the same article on the same
date. -/
theorem transform_unique_keys_witness :
    List.Pairwise (fun r1 r2 : CampaignDailyStats =>
        ¬ (r1.advert_id = r2.advert_id ∧ r1.nm_id = r2.nm_id ∧ r1.date = r2.date))
      [⟨1, 1, "A", ⟨2025, 9, 28⟩, 1, 0, 0, none, some 0, 0, 0, some 0⟩,
       ⟨2, 1, "A", ⟨2025, 9, 28⟩, 1, 0, 0, none, some 0, 0, 0, some 0⟩] :=
  transform_unique_keys
    [⟨1, [⟨some "2025-09-28", 0, 0, [⟨[⟨1, 1, 0, 0, 0⟩]⟩]⟩]⟩,
     ⟨2, [⟨some "2025-09-28", 0, 0, [⟨[⟨1, 1, 0, 0, 0⟩]⟩]⟩]⟩] [(1, "A")] 1 _
    (by norm_num [List.pairwise_cons])
    (by
      intro c hc
      rcases List.mem_cons.mp hc with rfl | hc'
      · exact List.pairwise_singleton _ _
      · rcases List.mem_cons.mp hc' with rfl | hc''
        · exact List.pairwise_singleton _ _
        · cases hc'')
    (by
      have hpd : _parse_date "2025-09-28" = some ⟨2025, 9, 28⟩ := by decide
      have hs1 : ("2025-09-28" : String) ≠ "" := by decide
      have hs2 : ("A" : String) ≠ "" := by decide
      unfold transform_fullstats_to_campaign_daily
      norm_num [hpd, hs1, hs2, optFlatMap, processDay, dayRecords,
        _aggregate_nm_metrics_by_platforms, insertNm, addNm, zeroMetrics, dictGet, mkDayStats,
        _calculate_cpc, _calculate_ctr, _calculate_cpm, quantize2, roundHalfEven, List.find?,
        List.filterMap])

/-- Claim C8: an article with no non-empty vendor-code entry is dropped
(the source prints a warning) while the rest of the batch is still
processed — the transformer succeeds or fails independently of the vendor
map — and every emitted record carries the non-empty vendor code its nm_id
resolves to. -/
theorem transform_vendor_lookup (resp : List Campaign) (vmap vmap2 : List (ℤ × String))
    (mv : ℤ) (l : List CampaignDailyStats)
    (h : transform_fullstats_to_campaign_daily resp vmap mv = some l) :
    (∀ r ∈ l, dictGet vmap r.nm_id = some r.vendor_code ∧ r.vendor_code ≠ "") ∧
    (transform_fullstats_to_campaign_daily resp vmap2 mv).isSome = true := by
  constructor
  · intro r hr
    obtain ⟨c, hc, hca, day, hday, s, hs, hse, d, hd, hrd⟩ := mem_transform resp vmap mv l h r hr
    obtain ⟨p, hp, hv, vc, hvc, hvce, hre⟩ := mem_dayRecords _ _ _ _ _ _ hrd
    rw [hre]
    simp only [mkDayStats]
    exact ⟨hvc, hvce⟩
  · have hsome : (transform_fullstats_to_campaign_daily resp vmap mv).isSome = true := by
      rw [h]; rfl
    unfold transform_fullstats_to_campaign_daily at hsome ⊢
    rw [isSome_optFlatMap] at hsome ⊢
    intro c hc
    have hcs := hsome c hc
    by_cases hca : c.advertId = 0
    · rw [if_pos hca]; rfl
    · rw [if_neg hca] at hcs ⊢
      rw [isSome_optFlatMap] at hcs ⊢
      intro day hday
      have hds := hcs day hday
      unfold processDay at hds ⊢
      cases hdd : day.date with
      | none => rfl
      | some s =>
          rw [hdd] at hds
          dsimp only at hds ⊢
          by_cases hse : s = ""
          · rw [if_pos hse]; rfl
          · rw [if_neg hse] at hds ⊢
            cases hpd : _parse_date s with
            | none => rw [hpd] at hds; simp at hds
            | some d => rfl

/-- Claim C8 witness: a batch containing article 1 (resolvable to A) and
article 2 (absent from the vendor map) produces exactly the record for
article 1, and transforming the same response against an empty vendor map
still succeeds. -/
theorem transform_vendor_lookup_witness :
    (∀ r ∈ [(⟨1, 1, "A", ⟨2025, 9, 28⟩, 1, 0, 0, none, some 0, 0, 0, some 0⟩ :
        CampaignDailyStats)],
      dictGet [(1, "A")] r.nm_id = some r.vendor_code ∧ r.vendor_code ≠ "") ∧
    (transform_fullstats_to_campaign_daily
        [⟨1, [⟨some "2025-09-28", 0, 0, [⟨[⟨1, 1, 0, 0, 0⟩, ⟨2, 1, 0, 0, 0⟩]⟩]⟩]⟩]
        [] 1).isSome = true :=
  transform_vendor_lookup
    [⟨1, [⟨some "2025-09-28", 0, 0, [⟨[⟨1, 1, 0, 0, 0⟩, ⟨2, 1, 0, 0, 0⟩]⟩]⟩]⟩]
    [(1, "A")] [] 1 _
    (by
      have hpd : _parse_date "2025-09-28" = some ⟨2025, 9, 28⟩ := by decide
      have hs1 : ("2025-09-28" : String) ≠ "" := by decide
      have hs2 : ("A" : String) ≠ "" := by decide
      unfold transform_fullstats_to_campaign_daily
      norm_num [hpd, hs1, hs2, optFlatMap, processDay, dayRecords,
        _aggregate_nm_metrics_by_platforms, insertNm, addNm, zeroMetrics, dictGet, mkDayStats,
        _calculate_cpc, _calculate_ctr, _calculate_cpm, quantize2, roundHalfEven, List.find?,
        List.filterMap])

/-! ## Shape of the snapshot records -/

theorem build_record_keys (nm_id : ℤ) (vendor_code date : String) (pd : PeriodData)
    (stocks : Option Stocks) :
    (build_record nm_id vendor_code date pd stocks).map Prod.fst =
      ["nm_id", "vendor_code", "date_of_period", "open_card_count", "add_to_cart_count",
       "orders_count", "cancel_count", "orders_sum_rub", "add_to_cart_percent",
       "cart_to_order_percent", "order_price"] ++
      (match stocks with | none => [] | some _ => ["stocks_mp", "stocks_wb"]) := by
  cases stocks <;> simp [build_record]

/-- Claim C10: a built record carries exactly the eleven data keys, each
present (a missing source datum is stored as null, not omitted), plus the
two stock keys exactly when a stocks argument was supplied — so the
omitted-versus-null distinction is confined to the stock fields. -/
theorem build_record_shape (nm_id : ℤ) (vendor_code date : String) (pd : PeriodData)
    (stocks : Option Stocks) :
    ((build_record nm_id vendor_code date pd stocks).map Prod.fst =
      ["nm_id", "vendor_code", "date_of_period", "open_card_count", "add_to_cart_count",
       "orders_count", "cancel_count", "orders_sum_rub", "add_to_cart_percent",
       "cart_to_order_percent", "order_price"] ++
      (if stocks.isSome then ["stocks_mp", "stocks_wb"] else [])) ∧
    lookupKey (build_record nm_id vendor_code date pd stocks) "nm_id" =
      some (.intv nm_id) ∧
    lookupKey (build_record nm_id vendor_code date pd stocks) "vendor_code" =
      some (.strv vendor_code) ∧
    lookupKey (build_record nm_id vendor_code date pd stocks) "date_of_period" =
      some (.strv date) ∧
    lookupKey (build_record nm_id vendor_code date pd stocks) "open_card_count" =
      some (jInt pd.openCardCount) ∧
    lookupKey (build_record nm_id vendor_code date pd stocks) "add_to_cart_count" =
      some (jInt pd.addToCartCount) ∧
    lookupKey (build_record nm_id vendor_code date pd stocks) "orders_count" =
      some (jInt pd.ordersCount) ∧
    lookupKey (build_record nm_id vendor_code date pd stocks) "cancel_count" =
      some (jInt pd.cancelCount) ∧
    lookupKey (build_record nm_id vendor_code date pd stocks) "orders_sum_rub" =
      some (jRat pd.ordersSumRub) ∧
    lookupKey (build_record nm_id vendor_code date pd stocks) "add_to_cart_percent" =
      some (jRat (pd.conversions.getD ⟨none, none⟩).addToCartPercent) ∧
    lookupKey (build_record nm_id vendor_code date pd stocks) "cart_to_order_percent" =
      some (jRat (pd.conversions.getD ⟨none, none⟩).cartToOrderPercent) ∧
    lookupKey (build_record nm_id vendor_code date pd stocks) "order_price" =
      some (jRat (calculate_order_price pd)) ∧
    (stocks = none →
      lookupKey (build_record nm_id vendor_code date pd stocks) "stocks_mp" = none ∧
      lookupKey (build_record nm_id vendor_code date pd stocks) "stocks_wb" = none) ∧
    (∀ st, stocks = some st →
      lookupKey (build_record nm_id vendor_code date pd stocks) "stocks_mp" =
        some (jInt st.stocksMp) ∧
      lookupKey (build_record nm_id vendor_code date pd stocks) "stocks_wb" =
        some (jInt st.stocksWb)) := by
  cases stocks <;> simp [build_record, lookupKey, List.find?]

/-- Claim C10 witness: the stock keys are absent for a record built without a
stocks argument, present (with null allowed as a value) when one is given,
and a missing openCardCount is stored as an explicit null. -/
theorem build_record_shape_witness :
    (lookupKey (build_record 5 "A" "2025-10-12" ⟨none, none, none, none, none, none⟩ none)
        "stocks_mp" = none ∧
      lookupKey (build_record 5 "A" "2025-10-12" ⟨none, none, none, none, none, none⟩ none)
        "stocks_wb" = none) ∧
    (lookupKey (build_record 5 "A" "2025-10-12" ⟨none, none, none, none, none, none⟩
        (some ⟨none, some 7⟩)) "stocks_mp" = some (jInt none) ∧
      lookupKey (build_record 5 "A" "2025-10-12" ⟨none, none, none, none, none, none⟩
        (some ⟨none, some 7⟩)) "stocks_wb" = some (jInt (some 7))) ∧
    lookupKey (build_record 5 "A" "2025-10-12" ⟨none, none, none, none, none, none⟩ none)
      "open_card_count" = some (jInt none) := by
  have h1 := build_record_shape 5 "A" "2025-10-12" ⟨none, none, none, none, none, none⟩ none
  have h2 := build_record_shape 5 "A" "2025-10-12" ⟨none, none, none, none, none, none⟩
    (some ⟨none, some 7⟩)
  exact ⟨h1.2.2.2.2.2.2.2.2.2.2.2.2.1 rfl,
    h2.2.2.2.2.2.2.2.2.2.2.2.2.2 ⟨none, some 7⟩ rfl,
    h1.2.2.2.2.1⟩

/-- Claim C3: a yesterday record never contains a stock key; a today record
always contains both (their values may be null). -/
theorem snapshot_stock_key_policy (today_str yesterday_str : String) (resp : ApiResponse) :
    (∀ r ∈ (extract_cr_stats_for_supabase today_str yesterday_str resp).2,
      "stocks_mp" ∉ r.map Prod.fst ∧ "stocks_wb" ∉ r.map Prod.fst) ∧
    (∀ r ∈ (extract_cr_stats_for_supabase today_str yesterday_str resp).1,
      "stocks_mp" ∈ r.map Prod.fst ∧ "stocks_wb" ∈ r.map Prod.fst) := by
  constructor
  · intro r hr
    unfold extract_cr_stats_for_supabase at hr
    dsimp only at hr
    obtain ⟨card, hcard, hf⟩ := List.mem_filterMap.mp hr
    by_cases hq : (truthyInt card.nmID && truthyStr card.vendorCode) = true
    · rw [if_pos hq] at hf
      cases hsp : card.statistics.previousPeriod with
      | none => rw [hsp] at hf; cases hf
      | some pd =>
          rw [hsp] at hf
          dsimp only at hf
          cases hf
          rw [build_record_keys]
          simp
    · rw [if_neg hq] at hf; cases hf
  · intro r hr
    unfold extract_cr_stats_for_supabase at hr
    dsimp only at hr
    obtain ⟨card, hcard, hf⟩ := List.mem_filterMap.mp hr
    by_cases hq : (truthyInt card.nmID && truthyStr card.vendorCode) = true
    · rw [if_pos hq] at hf
      cases hsp : card.statistics.selectedPeriod with
      | none => rw [hsp] at hf; cases hf
      | some pd =>
          rw [hsp] at hf
          dsimp only at hf
          cases hf
          rw [build_record_keys]
          simp
    · rw [if_neg hq] at hf; cases hf

/-- Claim C3 witness: for a concrete one-card response, the yesterday record
contains neither stock key and the today record contains both. -/
theorem snapshot_stock_key_policy_witness :
    ("stocks_mp" ∉ (build_record 5 "A" "2025-10-11" ⟨none, none, none, none, none, none⟩
        none).map Prod.fst ∧
      "stocks_wb" ∉ (build_record 5 "A" "2025-10-11" ⟨none, none, none, none, none, none⟩
        none).map Prod.fst) ∧
    ("stocks_mp" ∈ (build_record 5 "A" "2025-10-12" ⟨none, none, none, none, none, none⟩
        (some ⟨none, none⟩)).map Prod.fst ∧
      "stocks_wb" ∈ (build_record 5 "A" "2025-10-12" ⟨none, none, none, none, none, none⟩
        (some ⟨none, none⟩)).map Prod.fst) := by
  have h := snapshot_stock_key_policy "2025-10-12" "2025-10-11"
    ⟨[⟨some 5, some "A", ⟨some ⟨none, none, none, none, none, none⟩,
        some ⟨none, none, none, none, none, none⟩⟩, ⟨none, none⟩⟩]⟩
  refine ⟨h.1 _ ?_, h.2 _ ?_⟩ <;>
    simp [extract_cr_stats_for_supabase, truthyInt, truthyStr]

/-- Claim C7 counterexample: a period block with ordersCount = 1 but no
ordersSumRub field returns None, so a positive ordersCount alone does not
guarantee a computed order price, contrary to the claim. -/
theorem calculate_order_price_counterexample :
    ¬ (∀ pd : PeriodData, (∃ c, pd.ordersCount = some c ∧ 0 < c) →
        ∃ q, calculate_order_price pd = some q) := by
  intro h
  obtain ⟨q, hq⟩ := h ⟨none, none, some 1, none, none, none⟩ ⟨1, rfl, one_pos⟩
  simp [calculate_order_price] at hq

/-- Claim C7 (amended): calculate_order_price is None exactly when
ordersCount is missing or not positive or ordersSumRub is missing — in
particular for ordersCount = 0, ordersSumRub = 100 the price is absent, not
zero and not an error — and whenever ordersCount > 0 and ordersSumRub is
present it returns ordersSumRub/ordersCount rounded to two decimals. -/
theorem calculate_order_price_spec (pd : PeriodData) :
    calculate_order_price ⟨none, none, some 0, none, some 100, none⟩ = none ∧
    (calculate_order_price pd = none ↔
      (∀ c, pd.ordersCount = some c → c ≤ 0) ∨ pd.ordersSumRub = none) ∧
    (∀ c s, pd.ordersCount = some c → 0 < c → pd.ordersSumRub = some s →
      ∃ q, calculate_order_price pd = some q ∧ q = quantize2 (s / (c : ℚ)) ∧
        (q * 100).den = 1 ∧ |q - s / (c : ℚ)| ≤ 1 / 200) := by
  refine ⟨by simp [calculate_order_price], ?_, ?_⟩
  · unfold calculate_order_price
    cases hc : pd.ordersCount with
    | none => simp
    | some c =>
        cases hs : pd.ordersSumRub with
        | none => simp
        | some s =>
            dsimp only
            split_ifs with hpos
            · simp only [reduceCtorEq, false_iff]
              push_neg
              exact ⟨⟨c, rfl, hpos⟩, by simp⟩
            · simp only [true_iff]
              exact Or.inl (fun c' hc' => by cases hc'; exact le_of_not_lt hpos)
  · intro c s hc hpos hs
    refine ⟨quantize2 (s / (c : ℚ)), ?_, rfl, quantize2_den _, quantize2_close _⟩
    unfold calculate_order_price
    rw [hc, hs]
    dsimp only
    rw [if_pos hpos]

/-- Claim C7 witness: ordersCount = 2, ordersSumRub = 5 yields the rounded
quotient of 5/2. -/
theorem calculate_order_price_spec_witness :
    ∃ q, calculate_order_price ⟨none, none, some 2, none, some 5, none⟩ = some q ∧
      q = quantize2 (5 / ((2 : ℤ) : ℚ)) ∧ (q * 100).den = 1 ∧
      |q - 5 / ((2 : ℤ) : ℚ)| ≤ 1 / 200 :=
  (calculate_order_price_spec ⟨none, none, some 2, none, some 5, none⟩).2.2 2 5 rfl
    (by norm_num) rfl

/-! ## Per-card emission counts of the snapshot builder -/

theorem length_filterMap_countP {α β : Type _} (f : α → Option β) (l : List α) :
    (l.filterMap f).length = l.countP (fun a => (f a).isSome) := by
  induction l with
  | nil => rfl
  | cons a t ih =>
      cases hfa : f a <;>
        simp [List.filterMap_cons, hfa, ih, List.countP_cons]

/-- The truthiness filter the snapshot builder applies to each card. -/
def qualifying (card : Card) : Bool := truthyInt card.nmID && truthyStr card.vendorCode

theorem build_record_date (nm_id : ℤ) (vendor_code date : String) (pd : PeriodData)
    (stocks : Option Stocks) :
    lookupKey (build_record nm_id vendor_code date pd stocks) "date_of_period" =
      some (.strv date) := by
  cases stocks <;> simp [build_record, lookupKey, List.find?]

/-- Claim C6 counterexample: the claim promises a today and a yesterday
record for every card with non-null nmID and vendorCode, which in particular
forces non-empty output lists for a one-card response; a card whose
statistics block carries no period data yields no records at all.  (The
statement below is a consequence of the claim, refuted at a concrete
input.) -/
theorem snapshot_per_card_counterexample :
    ¬ (∀ (t y : String) (resp : ApiResponse), ∀ card ∈ resp.cards,
        card.nmID ≠ none → card.vendorCode ≠ none →
        (extract_cr_stats_for_supabase t y resp).1 ≠ [] ∧
        (extract_cr_stats_for_supabase t y resp).2 ≠ []) := by
  intro h
  obtain ⟨h1, -⟩ := h "2025-10-12" "2025-10-11"
    ⟨[⟨some 5, some "A", ⟨none, none⟩, ⟨none, none⟩⟩]⟩
    ⟨some 5, some "A", ⟨none, none⟩, ⟨none, none⟩⟩ (by simp) (by simp) (by simp)
  exact h1 (by simp [extract_cr_stats_for_supabase, truthyInt, truthyStr])

/-- Claim C6 (amended): for every card whose nmID is non-null and non-zero
and whose vendorCode is non-null and non-empty, the builder emits exactly one
today record per present non-empty selectedPeriod block (dated today, with
both stock keys) and exactly one yesterday record per present non-empty
previousPeriod block (dated yesterday, without stock keys); all other cards
contribute nothing. -/
theorem snapshot_per_card_spec (t y : String) (resp : ApiResponse) :
    ((extract_cr_stats_for_supabase t y resp).1.length =
      resp.cards.countP (fun card =>
        qualifying card && card.statistics.selectedPeriod.isSome)) ∧
    ((extract_cr_stats_for_supabase t y resp).2.length =
      resp.cards.countP (fun card =>
        qualifying card && card.statistics.previousPeriod.isSome)) ∧
    (∀ r ∈ (extract_cr_stats_for_supabase t y resp).1,
      lookupKey r "date_of_period" = some (.strv t) ∧
        "stocks_mp" ∈ r.map Prod.fst ∧ "stocks_wb" ∈ r.map Prod.fst) ∧
    (∀ r ∈ (extract_cr_stats_for_supabase t y resp).2,
      lookupKey r "date_of_period" = some (.strv y) ∧
        "stocks_mp" ∉ r.map Prod.fst ∧ "stocks_wb" ∉ r.map Prod.fst) := by
  refine ⟨?_, ?_, ?_, ?_⟩
  · unfold extract_cr_stats_for_supabase
    dsimp only
    rw [length_filterMap_countP]
    congr 1
    funext card
    cases hqq : (truthyInt card.nmID && truthyStr card.vendorCode) with
    | false => simp [qualifying, hqq]
    | true =>
        cases hsp : card.statistics.selectedPeriod <;> simp [qualifying, hqq, hsp]
  · unfold extract_cr_stats_for_supabase
    dsimp only
    rw [length_filterMap_countP]
    congr 1
    funext card
    cases hqq : (truthyInt card.nmID && truthyStr card.vendorCode) with
    | false => simp [qualifying, hqq]
    | true =>
        cases hsp : card.statistics.previousPeriod <;> simp [qualifying, hqq, hsp]
  · intro r hr
    unfold extract_cr_stats_for_supabase at hr
    dsimp only at hr
    obtain ⟨card, hcard, hf⟩ := List.mem_filterMap.mp hr
    by_cases hq : (truthyInt card.nmID && truthyStr card.vendorCode) = true
    · rw [if_pos hq] at hf
      cases hsp : card.statistics.selectedPeriod with
      | none => rw [hsp] at hf; cases hf
      | some pd =>
          rw [hsp] at hf
          dsimp only at hf
          cases hf
          refine ⟨build_record_date _ _ _ _ _, ?_, ?_⟩ <;> (rw [build_record_keys]; simp)
    · rw [if_neg hq] at hf; cases hf
  · intro r hr
    unfold extract_cr_stats_for_supabase at hr
    dsimp only at hr
    obtain ⟨card, hcard, hf⟩ := List.mem_filterMap.mp hr
    by_cases hq : (truthyInt card.nmID && truthyStr card.vendorCode) = true
    · rw [if_pos hq] at hf
      cases hsp : card.statistics.previousPeriod with
      | none => rw [hsp] at hf; cases hf
      | some pd =>
          rw [hsp] at hf
          dsimp only at hf
          cases hf
          refine ⟨build_record_date _ _ _ _ _, ?_, ?_⟩ <;> (rw [build_record_keys]; simp)
    · rw [if_neg hq] at hf; cases hf

/-- Claim C6 witness: a response with one fully qualifying card (both period
blocks present) and one card lacking a vendor code emits exactly one today
and one yesterday record, with the right dates and stock keys. -/
theorem snapshot_per_card_spec_witness :
    (extract_cr_stats_for_supabase "2025-10-12" "2025-10-11"
      ⟨[⟨some 5, some "A", ⟨some ⟨none, none, none, none, none, none⟩,
          some ⟨none, none, none, none, none, none⟩⟩, ⟨none, none⟩⟩,
        ⟨some 6, none, ⟨some ⟨none, none, none, none, none, none⟩,
          some ⟨none, none, none, none, none, none⟩⟩, ⟨none, none⟩⟩]⟩).1.length = 1 ∧
    (extract_cr_stats_for_supabase "2025-10-12" "2025-10-11"
      ⟨[⟨some 5, some "A", ⟨some ⟨none, none, none, none, none, none⟩,
          some ⟨none, none, none, none, none, none⟩⟩, ⟨none, none⟩⟩,
        ⟨some 6, none, ⟨some ⟨none, none, none, none, none, none⟩,
          some ⟨none, none, none, none, none, none⟩⟩, ⟨none, none⟩⟩]⟩).2.length = 1 ∧
    (lookupKey (build_record 5 "A" "2025-10-12" ⟨none, none, none, none, none, none⟩
        (some ⟨none, none⟩)) "date_of_period" = some (.strv "2025-10-12") ∧
      "stocks_mp" ∈ (build_record 5 "A" "2025-10-12" ⟨none, none, none, none, none, none⟩
        (some ⟨none, none⟩)).map Prod.fst) := by
  have h := snapshot_per_card_spec "2025-10-12" "2025-10-11"
    ⟨[⟨some 5, some "A", ⟨some ⟨none, none, none, none, none, none⟩,
        some ⟨none, none, none, none, none, none⟩⟩, ⟨none, none⟩⟩,
      ⟨some 6, none, ⟨some ⟨none, none, none, none, none, none⟩,
        some ⟨none, none, none, none, none, none⟩⟩, ⟨none, none⟩⟩]⟩
  refine ⟨?_, ?_, ?_⟩
  · rw [h.1]
    simp [qualifying, truthyInt, truthyStr, List.countP_cons]
  · rw [h.2.1]
    simp [qualifying, truthyInt, truthyStr, List.countP_cons]
  · have hmem := h.2.2.1 (build_record 5 "A" "2025-10-12"
      ⟨none, none, none, none, none, none⟩ (some ⟨none, none⟩))
      (by simp [extract_cr_stats_for_supabase, truthyInt, truthyStr])
    exact ⟨hmem.1, hmem.2.1⟩

/-! ## The batch validator -/

theorem batchGo_all_valid (total : ℕ) (roe : Bool) (rest : List CampaignDailyStats)
    (i vc ic : ℕ) (errs : List String)
    (h : ∀ s ∈ rest, validate_campaign_daily_stats s = []) :
    batchGo total roe rest i vc ic errs = .ok ⟨ic == 0, total, vc + rest.length, ic, errs⟩ := by
  induction rest generalizing i vc with
  | nil => simp [batchGo]
  | cons a t ih =>
      unfold batchGo
      have hv : (validate_campaign_daily_stats a).isEmpty = true := by
        rw [h a (List.mem_cons_self a t)]; rfl
      rw [if_pos hv, ih (i + 1) (vc + 1) (fun x hx => h x (List.mem_cons_of_mem _ hx))]
      have harith : vc + 1 + t.length = vc + (a :: t).length := by
        simp [List.length_cons]; omega
      rw [harith]

theorem batchGo_error_at (total : ℕ) (rest : List CampaignDailyStats)
    (j i vc ic : ℕ) (errs : List String) (s : CampaignDailyStats)
    (hj : rest[j]? = some s)
    (hpre : ∀ j' t', j' < j → rest[j']? = some t' → validate_campaign_daily_stats t' = [])
    (hs : validate_campaign_daily_stats s ≠ []) :
    batchGo total true rest i vc ic errs = .error (recordErrorMessage (i + j) total s) := by
  induction rest generalizing j i vc with
  | nil => simp at hj
  | cons a t ih =>
      cases j with
      | zero =>
          have has : a = s := by simpa using hj
          subst has
          unfold batchGo
          have hv : ¬ (validate_campaign_daily_stats a).isEmpty = true := by
            cases hval : validate_campaign_daily_stats a with
            | nil => exact absurd hval hs
            | cons x xs => simp [hval]
          rw [if_neg hv]
          simp [recordErrorMessage]
      | succ j' =>
          have ha : validate_campaign_daily_stats a = [] :=
            hpre 0 a (Nat.succ_pos j') (by simp)
          unfold batchGo
          have hv : (validate_campaign_daily_stats a).isEmpty = true := by rw [ha]; rfl
          rw [if_pos hv,
            ih j' (i + 1) (vc + 1) (by simpa using hj)
              (fun j'' t'' hlt hg =>
                hpre (j'' + 1) t'' (by omega) (by simpa using hg))]
          have : i + 1 + j' = i + (j' + 1) := by omega
          rw [this]

theorem countP_not_add {α : Type _} (p : α → Bool) (l : List α) :
    l.countP p + l.countP (fun a => !(p a)) = l.length := by
  induction l with
  | nil => rfl
  | cons a t ih => cases hpa : p a <;> simp [List.countP_cons, hpa] <;> omega

theorem batchGo_collect (total : ℕ) (rest : List CampaignDailyStats) (i vc ic : ℕ)
    (errs : List String) :
    ∃ rep, batchGo total false rest i vc ic errs = .ok rep ∧
      rep.total = total ∧
      rep.valid_count = vc + rest.countP (fun s => (validate_campaign_daily_stats s).isEmpty) ∧
      rep.invalid_count =
        ic + rest.countP (fun s => !(validate_campaign_daily_stats s).isEmpty) ∧
      rep.errors.length =
        errs.length + rest.countP (fun s => !(validate_campaign_daily_stats s).isEmpty) ∧
      rep.valid = (rep.invalid_count == 0) := by
  induction rest generalizing i vc ic errs with
  | nil => exact ⟨⟨ic == 0, total, vc, ic, errs⟩, rfl, rfl, by simp, by simp, by simp, rfl⟩
  | cons a t ih =>
      unfold batchGo
      cases hv : (validate_campaign_daily_stats a).isEmpty with
      | true =>
          rw [if_pos rfl]
          obtain ⟨rep, heq, h1, h2, h3, h4, h5⟩ := ih (i + 1) (vc + 1) ic errs
          refine ⟨rep, heq, h1, ?_, ?_, ?_, h5⟩
          · rw [h2, List.countP_cons]
            simp [hv]
            omega
          · rw [h3, List.countP_cons]
            simp [hv]
          · rw [h4, List.countP_cons]
            simp [hv]
      | false =>
          rw [if_neg (by simp)]
          dsimp only
          rw [if_neg (by simp)]
          obtain ⟨rep, heq, h1, h2, h3, h4, h5⟩ :=
            ih (i + 1) vc (ic + 1) (errs ++ [recordErrorMessage i total a])
          refine ⟨rep, heq, h1, ?_, ?_, ?_, h5⟩
          · rw [h2, List.countP_cons]
            simp [hv]
          · rw [h3, List.countP_cons]
            simp [hv]
            omega
          · rw [h4, List.countP_cons]
            simp [hv]
            omega

/-- Claim C9: in fail-fast mode the batch validator returns the all-valid
report when every record passes and raises (returns the error) built from
the first invalid record otherwise; in collect mode it never raises and
returns a report whose total is the list length, whose valid and invalid
counts partition the total, whose valid flag is set exactly when nothing is
invalid, and whose error list carries one message per invalid record. -/
theorem validate_batch_spec (stats_list : List CampaignDailyStats) :
    ((∀ s ∈ stats_list, validate_campaign_daily_stats s = []) →
      validate_campaign_daily_stats_batch stats_list true =
        .ok ⟨true, stats_list.length, stats_list.length, 0, []⟩) ∧
    (∀ i s, stats_list[i]? = some s →
      (∀ j t, j < i → stats_list[j]? = some t → validate_campaign_daily_stats t = []) →
      validate_campaign_daily_stats s ≠ [] →
      validate_campaign_daily_stats_batch stats_list true =
        .error (recordErrorMessage i stats_list.length s)) ∧
    (∃ rep, validate_campaign_daily_stats_batch stats_list false = .ok rep ∧
      rep.total = stats_list.length ∧
      rep.valid_count + rep.invalid_count = rep.total ∧
      (rep.valid = true ↔ rep.invalid_count = 0) ∧
      rep.errors.length = rep.invalid_count) := by
  refine ⟨?_, ?_, ?_⟩
  · intro hall
    unfold validate_campaign_daily_stats_batch
    rw [batchGo_all_valid _ _ _ _ _ _ _ hall]
    simp
  · intro i s hi hpre hs
    unfold validate_campaign_daily_stats_batch
    have h := batchGo_error_at stats_list.length stats_list i 0 0 0 [] s hi hpre hs
    simpa using h
  · obtain ⟨rep, heq, h1, h2, h3, h4, h5⟩ :=
      batchGo_collect stats_list.length stats_list 0 0 0 []
    refine ⟨rep, heq, h1, ?_, ?_, ?_⟩
    · rw [h2, h3, h1]
      simpa using countP_not_add (fun s => (validate_campaign_daily_stats s).isEmpty) stats_list
    · rw [h5]
      simp
    · rw [h4, h3]
      simp

/-- Claim C9 witness: on a two-record batch whose second record is invalid
(clicks above views, CTR above 100), fail-fast mode raises the message built
from that record. -/
theorem validate_batch_spec_witness :
    validate_campaign_daily_stats_batch
      [⟨1, 1, "A", ⟨2025, 9, 27⟩, 10, 2, 20, some 10, some 20, 5, 250, some 2000⟩,
       ⟨1, 1, "A", ⟨2025, 9, 27⟩, 1, 5, 0, none, some 500, 0, 0, some 0⟩] true =
      .error (recordErrorMessage 1 2
        ⟨1, 1, "A", ⟨2025, 9, 27⟩, 1, 5, 0, none, some 500, 0, 0, some 0⟩) := by
  have hw : isAllWhitespace "A" = false := by decide
  have hA : ¬ ("A" : String) = "" := by decide
  have hvalid : validate_campaign_daily_stats
      ⟨1, 1, "A", ⟨2025, 9, 27⟩, 10, 2, 20, some 10, some 20, 5, 250, some 2000⟩ = [] := by
    norm_num [validate_campaign_daily_stats, hw, hA]
  have hinvalid : validate_campaign_daily_stats
      ⟨1, 1, "A", ⟨2025, 9, 27⟩, 1, 5, 0, none, some 500, 0, 0, some 0⟩ ≠ [] := by
    norm_num [validate_campaign_daily_stats, hw, hA]
    exact List.cons_ne_nil _ _
  refine (validate_batch_spec _).2.1 1 _ (by simp) ?_ hinvalid
  intro j t hj hget
  cases j with
  | zero =>
      simp at hget
      rw [← hget]
      exact hvalid
  | succ n => omega

end Wildberries
